import Mathlib

/-!
Verification of the Pali dictionary generation engine.

The generator (class `UltimateMonumentalPaliDictionaryGenerator` and the
compositor `UltimateCompoundSemanticCompositor`, source file
`src/unnamed/part_000`) accumulates generated entries in a Python dict keyed
by surface form.  We model that dict as an insertion-ordered association
list, the seed/pre-existing word set as a `List String`, and every
generation phase as a fold over the candidate sequence that the phase's
nested loops enumerate.  Helper functions that the generator inherits from
parent classes absent from the repository snapshot (morphology appliers,
sandhi tables, the validator, knowledge-base data) are taken as explicit
function parameters, so theorems about the phases quantify over all of
their possible behaviours unless stated otherwise.  Python floats are
modelled by rationals.

The file is organised as: data model and phase definitions first, then the
theorems about them.
-/

set_option maxHeartbeats 1000000
set_option maxRecDepth 8000

namespace PaliDict

/-- A generated dictionary entry.  Fields mirror the keys that the source
puts into its entry dicts; a field that a given phase does not set keeps its
default, and optional keys (`components`, `depth`, `register`) are modelled
with `Option`. -/
structure GenEntry where
  word : String := ""
  meaning : String := ""
  type : String := ""
  base : String := ""
  root : String := ""
  suffix : String := ""
  person : String := ""
  number : String := ""
  tense : String := ""
  voice : String := ""
  gender : String := ""
  gcase : String := ""
  derivationLevel : String := ""
  primaryBase : String := ""
  secondaryBase : String := ""
  semanticField : String := ""
  register : Option String := none
  subtype : String := ""
  position : String := ""
  indeclinable : Bool := false
  components : Option (List String) := none
  pattern : String := ""
  depth : Option Nat := none
  baseCompound : String := ""
  sandhiBoundary : Nat := 0
  sandhiType : String := ""
  category : String := ""
  field : String := ""
  rare : Bool := false
  freq : ℚ := 0
  deriving DecidableEq, Repr

/-- The generator's `self.generated_dict`, an insertion-ordered mapping from
surface form to entry. -/
abbrev Registry := List (String × GenEntry)

section DictOps

variable {α : Type}

/-- Membership test on a Python dict (`k in d`). -/
def hasKey (d : List (String × α)) (k : String) : Bool :=
  d.any (fun p => p.1 == k)

/-- Lookup in a Python dict (`d[k]`). -/
def lookup : List (String × α) → String → Option α
  | [], _ => none
  | (k', e) :: rest, k => if k' = k then some e else lookup rest k

/-- The key list of a Python dict, in insertion order. -/
def keys (d : List (String × α)) : List String :=
  d.map Prod.fst

/-- Python dict assignment `d[k] = e`: replaces in place if the key is
present, otherwise appends at the end. -/
def dictSet (d : List (String × α)) (k : String) (e : α) : List (String × α) :=
  if hasKey d k then d.map (fun p => if p.1 = k then (k, e) else p)
  else d ++ [(k, e)]

end DictOps

/-- Python `str.startswith`, evaluated on the character list (the core
`String.startsWith` does not reduce in the kernel). -/
def pyStartsWith (s pre : String) : Bool :=
  pre.data.isPrefixOf s.data

/-- Fuel-indexed worker for `pyReplace`: at each character either the
pattern matches and is replaced, consuming `pattern.length` characters, or
one character is copied.  One unit of fuel is spent per step, and
`s.length` units suffice. -/
def replaceFuel (pat repl : List Char) : Nat → List Char → List Char
  | 0, s => s
  | _ + 1, [] => []
  | fuel + 1, c :: cs =>
      if pat.isPrefixOf (c :: cs) then
        repl ++ replaceFuel pat repl fuel ((c :: cs).drop pat.length)
      else c :: replaceFuel pat repl fuel cs

/-- Python `str.replace` for a nonempty pattern (every pattern the source
passes is nonempty: `"X"`, `"√"`, `"-"`); the core `String.replace` does
not reduce in the kernel.  An empty pattern leaves the string unchanged. -/
def pyReplace (s pattern repl : String) : String :=
  if pattern = "" then s
  else ⟨replaceFuel pattern.data repl.data s.data.length s.data⟩

/-- The invariant of claim C1: the registry's keys are pairwise distinct and
none of them is a key of the seed/pre-existing dictionary. -/
def GoodReg (existing : List String) (d : Registry) : Prop :=
  (keys d).Nodup ∧ ∀ k ∈ keys d, k ∉ existing

/-- Generic description of a phase step: on every candidate drawn from the
phase's candidate list, the step either leaves the registry unchanged or
appends exactly one pair that is fresh, absent from the seed word list, and
satisfies the phase property `P`. -/
def StepCommits {κ : Type} (existing : List String) (l : List κ)
    (step : Registry → κ → Registry) (P : String × GenEntry → Prop) : Prop :=
  ∀ d c, c ∈ l → step d c = d ∨
    ∃ p, step d c = d ++ [p] ∧ hasKey d p.1 = false ∧ p.1 ∉ existing ∧ P p

/-! ## Compound semantic compositor

`UltimateCompoundSemanticCompositor` (part_000 lines 1394-1786).  The
function `_get_semantic_fields` and the sandhi/meaning helpers come from the
parent class `CompoundSemanticCompositor`, which is not part of the
repository snapshot; they appear as function parameters
(`getSemanticFields`, `applyCompoundSandhi`, `composeMeaning`). -/

/-- The blocklist of `_is_meaningful_combination` (lines 1693-1697). -/
def meaninglessCombinations : List (List String × List String) :=
  [(["particles"], ["particles"]),
   (["prefixes"], ["prefixes"]),
   (["numbers"], ["numbers"])]

/-- The encourage-list of `_is_meaningful_combination` (lines 1705-1713). -/
def meaningfulCombinations : List (List String × List String) :=
  [(["qualities"], ["beings"]),
   (["action"], ["objects"]),
   (["temporal"], ["events"]),
   (["spatial"], ["entities"]),
   (["mind"], ["qualities"]),
   (["enlightenment"], ["path"]),
   (["ethics"], ["practice"])]

/-- `any(f in combo[0] for f in fields1) and any(f in combo[1] for f in fields2)`
(lines 1700-1701 and 1716-1717). -/
def comboMatches (fields1 fields2 : List String) (combo : List String × List String) : Bool :=
  fields1.any (fun f => combo.1.contains f) && fields2.any (fun f => combo.2.contains f)

/-- `_is_meaningful_combination` (lines 1686-1721): return `False` on the
first blocklist match, `True` on the first encourage-list match, and `True`
by default. -/
def isMeaningfulCombination (getSemanticFields : String → List String)
    (word1 word2 : String) : Bool :=
  let fields1 := getSemanticFields word1
  let fields2 := getSemanticFields word2
  if meaninglessCombinations.any (comboMatches fields1 fields2) then false
  else if meaningfulCombinations.any (comboMatches fields1 fields2) then true
  else true

/-- `_determine_compound_type` (lines 1723-1745): an ordered decision chain
on the semantic fields of the two components. -/
def determineCompoundType (getSemanticFields : String → List String)
    (word1 word2 : String) : String :=
  let fields1 := getSemanticFields word1
  let fields2 := getSemanticFields word2
  if fields1.any (fun f => (["beings", "society"] : List String).contains f) then
    "tatpurusa"
  else if fields1.any (fun f => (["qualities", "colors"] : List String).contains f) then
    "karmadharaya"
  else if fields2.any (fun f => (["body", "faculties"] : List String).contains f) then
    "bahuvrihi"
  else if fields1 = fields2 then
    "dvandva"
  else
    "tatpurusa"

/-- `_calculate_combination_frequency` (lines 1767-1777); `_get_word_frequency`
(lines 1779-1786) reads knowledge-base tables of the absent parent class and
is abstracted as `wordFrequency`. -/
def calculateCombinationFrequency (wordFrequency : String → ℚ)
    (word1 word2 : String) : ℚ :=
  ((wordFrequency word1 + wordFrequency word2) / 2) * (8 / 10)

/-- A compound record as built by the compositor phases.  `pattern`,
`religiousCore`, `depth` and `baseCompound` are optional keys only set by
the religious/technical/recursive sub-phases. -/
structure CompoundInfo where
  components : List String := []
  type : String := ""
  meaning : String := ""
  freq : ℚ := 0
  pattern : Option String := none
  religiousCore : Option String := none
  depth : Option Nat := none
  baseCompound : Option String := none
  deriving DecidableEq, Repr

/-- The compositor state threaded through `_generate_all_basic_combinations`:
its local `compounds` dict, `self.generated_compounds` (a set, modelled as
the list of members in insertion order) and the local `count`. -/
structure CombosState where
  compounds : List (String × CompoundInfo) := []
  generatedCompounds : List String := []
  count : Nat := 0
  deriving DecidableEq, Repr

/-- One inner-loop iteration of `_generate_all_basic_combinations`
(lines 1480-1506): skip when `i == j` or the budget is reached, check the
meaningfulness filter, apply sandhi, and commit the compound if its key is
in neither the local dict nor `generated_compounds`. -/
def basicCombinationStep (getSemanticFields : String → List String)
    (applyCompoundSandhi : List String → String)
    (composeMeaning : List String → String → String)
    (wordFrequency : String → ℚ) (maxCount : Nat) (i : Nat) (word1 : String)
    (st : CombosState) (jw : Nat × String) : CombosState :=
  if i = jw.1 ∨ st.count ≥ maxCount then st
  else if isMeaningfulCombination getSemanticFields word1 jw.2 then
    let compound := applyCompoundSandhi [word1, jw.2]
    if hasKey st.compounds compound = false ∧ st.generatedCompounds.contains compound = false then
      let ctype := determineCompoundType getSemanticFields word1 jw.2
      { compounds := st.compounds ++ [(compound,
          { components := [word1, jw.2],
            type := ctype,
            meaning := composeMeaning [word1, jw.2] ctype,
            freq := calculateCombinationFrequency wordFrequency word1 jw.2 })],
        generatedCompounds := st.generatedCompounds ++ [compound],
        count := st.count + 1 }
    else st
  else st

/-- The outer loop of `_generate_all_basic_combinations` (lines 1476-1506):
`break` once the budget is reached, otherwise run the inner loop over the
full enumerated pool. -/
def basicCombinationsOuter (getSemanticFields : String → List String)
    (applyCompoundSandhi : List String → String)
    (composeMeaning : List String → String → String)
    (wordFrequency : String → ℚ) (maxCount : Nat)
    (allEnum : List (Nat × String)) :
    List (Nat × String) → CombosState → CombosState
  | [], st => st
  | (i, w1) :: rest, st =>
      if st.count ≥ maxCount then st
      else
        basicCombinationsOuter getSemanticFields applyCompoundSandhi composeMeaning
          wordFrequency maxCount allEnum rest
          (allEnum.foldl
            (basicCombinationStep getSemanticFields applyCompoundSandhi composeMeaning
              wordFrequency maxCount i w1) st)

/-- `_generate_all_basic_combinations` (lines 1462-1508).  The source builds
its word pool as `list(set(...))` over the semantic-field table; `allWords`
stands for that pool in the (unspecified) enumeration order that the Python
set iteration happened to produce, and `generatedCompounds0` is the
compositor's `self.generated_compounds` state on entry. -/
def generateAllBasicCombinations (getSemanticFields : String → List String)
    (applyCompoundSandhi : List String → String)
    (composeMeaning : List String → String → String)
    (wordFrequency : String → ℚ) (allWords : List String) (maxCount : Nat)
    (generatedCompounds0 : List String) : CombosState :=
  basicCombinationsOuter getSemanticFields applyCompoundSandhi composeMeaning
    wordFrequency maxCount allWords.enum allWords.enum
    { compounds := [], generatedCompounds := generatedCompounds0, count := 0 }

/-- The core religious terms of
`_generate_religious_philosophical_compounds` (line 1516). -/
def religiousCores : List String :=
  ["buddha", "dhamma", "saṅgha", "nibbāna", "kamma", "sīla", "samādhi", "paññā"]

/-- The core philosophical terms (line 1517). -/
def philosophicalCores : List String :=
  ["sacca", "magga", "phala", "vimutti", "bodhi", "ñāṇa", "karuṇā", "mettā"]

/-- `_determine_religious_compound_type` (lines 1747-1754). -/
def determineReligiousCompoundType (word1 word2 core : String) : String :=
  if core = word1 then "core_modifier"
  else if core = word2 then "modifier_core"
  else "religious_tatpurusa"

/-- `_compose_religious_meaning` (lines 1756-1765); `_get_word_meaning` is
absent from the snapshot and appears as `getWordMeaning`.  The `core`
argument of the source function is unused by its body and is omitted.
`\x27` is an ASCII apostrophe. -/
def composeReligiousMeaning (getWordMeaning : String → String)
    (components : List String) (compoundType : String) : String :=
  let meanings := components.map getWordMeaning
  if compoundType = "core_modifier" then
    (meanings.getD 0 "") ++ "\x27s " ++ (meanings.getD 1 "")
  else if compoundType = "modifier_core" then
    (meanings.getD 1 "") ++ " of " ++ (meanings.getD 0 "")
  else
    (meanings.getD 1 "") ++ " related to " ++ (meanings.getD 0 "")

/-- One ordering of the try-both-orders innermost loop of
`_generate_religious_philosophical_compounds` (lines 1537-1558).  Note: no
budget check occurs at this level; the only guards are `word1 == word2`
and freshness.  The source frequency literal 3.5 is the rational 7/2. -/
def religiousOrderStep (applyCompoundSandhi : List String → String)
    (getWordMeaning : String → String) (core : String)
    (st : CombosState) (pair : String × String) : CombosState :=
  if pair.1 = pair.2 then st
  else
    let compound := applyCompoundSandhi [pair.1, pair.2]
    if hasKey st.compounds compound = false ∧
        st.generatedCompounds.contains compound = false then
      let ctype := determineReligiousCompoundType pair.1 pair.2 core
      { compounds := st.compounds ++ [(compound,
          { components := [pair.1, pair.2],
            type := "religious_" ++ ctype,
            meaning := composeReligiousMeaning getWordMeaning [pair.1, pair.2] ctype,
            religiousCore := some core,
            freq := 7 / 2 })],
        generatedCompounds := st.generatedCompounds ++ [compound],
        count := st.count + 1 }
    else st

/-- The `other` loop of `_generate_religious_philosophical_compounds`
(lines 1532-1558): the budget is checked once per word, before the two
orderings are both tried. -/
def religiousOtherLoop (applyCompoundSandhi : List String → String)
    (getWordMeaning : String → String) (maxCount : Nat) (core : String) :
    List String → CombosState → CombosState
  | [], st => st
  | other :: rest, st =>
      if st.count ≥ maxCount then st
      else
        religiousOtherLoop applyCompoundSandhi getWordMeaning maxCount core rest
          ([(core, other), (other, core)].foldl
            (religiousOrderStep applyCompoundSandhi getWordMeaning core) st)

/-- The `core` loop of `_generate_religious_philosophical_compounds`
(lines 1528-1558). -/
def religiousCoreLoop (applyCompoundSandhi : List String → String)
    (getWordMeaning : String → String) (maxCount : Nat)
    (allOthers : List String) :
    List String → CombosState → CombosState
  | [], st => st
  | core :: rest, st =>
      if st.count ≥ maxCount then st
      else
        religiousCoreLoop applyCompoundSandhi getWordMeaning maxCount allOthers rest
          (religiousOtherLoop applyCompoundSandhi getWordMeaning maxCount core
            allOthers st)

/-- `_generate_religious_philosophical_compounds` (lines 1510-1560).  As in
the basic sub-phase, `allOthers` stands for the `list(set(...))` pool
(line 1525) in the enumeration order the Python set iteration produced,
and `generatedCompounds0` is the compositor's `self.generated_compounds`
state on entry. -/
def generateReligiousPhilosophicalCompounds
    (applyCompoundSandhi : List String → String)
    (getWordMeaning : String → String) (allOthers : List String)
    (maxCount : Nat) (generatedCompounds0 : List String) : CombosState :=
  religiousCoreLoop applyCompoundSandhi getWordMeaning maxCount allOthers
    (religiousCores ++ philosophicalCores)
    { compounds := [], generatedCompounds := generatedCompounds0, count := 0 }

/-! ## Knowledge-base record shapes

The knowledge-base tables (`base_meanings`, `root_meanings`, proper names,
technical vocabulary, indeclinables, derivation patterns) are data of the
parent knowledge-base classes absent from the snapshot; the phases below
take them as list parameters with exactly the record fields the embedded
code reads. -/

/-- The info record of a `base_meanings` / `root_meanings` / proper-name
entry, restricted to the keys the embedded phases read.  A `none` models an
absent key (Python `info.get(...)`). -/
structure BaseInfo where
  semanticField : Option String := none
  frequency : ℚ := 3
  register : Option String := none
  gender : String := ""
  declension : String := ""
  deriving DecidableEq, Repr

/-- The info record of a `comprehensive_indeclinables` entry
(part_000 lines 54-219): its `type`, `meaning`, optional `position` and
`frequency`. -/
structure IndeclInfo where
  type : String := ""
  meaning : String := ""
  position : Option String := none
  frequency : ℚ := 3
  deriving DecidableEq, Repr

/-- The info record of a derivation-pattern suffix (the embedded loop reads
only the optional `gender` key, line 2644). -/
structure SuffixInfo where
  gender : Option String := none
  deriving DecidableEq, Repr

/-- The `self.limits` table of the ultimate generator (lines 1815-1823).
The only limit the generator ever reads back is `compoundsPerType`
(line 2571, as `max_total` of the compound phase); every other limit is
configured but never consulted by any phase. -/
structure UltimateLimits where
  morphologicalFormsPerWord : Nat
  verbalFormsPerRoot : Nat
  compoundsPerType : Nat
  derivativesPerPattern : Nat
  sandhiVariantsPerWord : Nat
  maxRecursiveDepth : Nat
  maxTotalTarget : Nat
  deriving DecidableEq, Repr

/-- The limit values set in `__init__` (lines 1815-1823). -/
def ultimateLimits : UltimateLimits :=
  { morphologicalFormsPerWord := 1000
    verbalFormsPerRoot := 1000
    compoundsPerType := 50000
    derivativesPerPattern := 10000
    sandhiVariantsPerWord := 100
    maxRecursiveDepth := 5
    maxTotalTarget := 1000000 }

/-! ## Phase 1: ultimate base entries (lines 1904-1948) -/

/-- Commit discipline of the parent-class variant generators invoked by
`_generate_ultimate_base_entries` (contextual, register and historical
variants, lines 1916-1929), whose bodies are not part of the snapshot.
Modelled from the spec: missing are `_generate_all_contextual_variants`,
`_generate_all_register_variants` and `_generate_all_historical_variants`;
per spec section 4.5 each phase "commits entries through the dedup
registry's insert-if-absent operation", so the variant candidates produced
for a word are inserted only if the key is neither a seed word nor already
registered. -/
def commitVariants (existing : List String) (cands : List (String × GenEntry))
    (d : Registry) : Registry :=
  cands.foldl (fun d p =>
    if p.1 ∉ existing ∧ hasKey d p.1 = false then d ++ [p] else d) d

/-- One `base_meanings` iteration of `_generate_ultimate_base_entries`
(lines 1909-1929): the comprehensive entry is written with a plain dict
assignment guarded only by `word not in self.existing_words`, then the
variant generators run.  `_create_comprehensive_base_entry` is absent from
the snapshot and appears as `mkBaseEntry`. -/
def baseEntryStep (existing : List String)
    (mkBaseEntry : String → BaseInfo → GenEntry)
    (variantCands : String → BaseInfo → List (String × GenEntry))
    (d : Registry) (c : String × BaseInfo) : Registry :=
  if c.1 ∉ existing then
    commitVariants existing (variantCands c.1 c.2) (dictSet d c.1 (mkBaseEntry c.1 c.2))
  else d

/-- One `comprehensive_indeclinables` iteration of
`_generate_ultimate_base_entries` (lines 1932-1945). -/
def indeclStep (existing : List String) (enhanceMeaning : String → String)
    (d : Registry) (c : String × IndeclInfo) : Registry :=
  if c.1 ∉ existing ∧ hasKey d c.1 = false then
    d ++ [(c.1,
      { word := c.1,
        meaning := enhanceMeaning c.2.meaning,
        type := "indeclinable",
        subtype := c.2.type,
        position := c.2.position.getD "various",
        freq := c.2.frequency,
        indeclinable := true })]
  else d

/-- `_generate_ultimate_base_entries` (lines 1904-1948). -/
def generateUltimateBaseEntries (existing : List String)
    (baseMeanings : List (String × BaseInfo))
    (mkBaseEntry : String → BaseInfo → GenEntry)
    (variantCands : String → BaseInfo → List (String × GenEntry))
    (indeclinables : List (String × IndeclInfo))
    (enhanceMeaning : String → String) (d : Registry) : Registry :=
  indeclinables.foldl (indeclStep existing enhanceMeaning)
    (baseMeanings.foldl (baseEntryStep existing mkBaseEntry variantCands) d)

/-! ## Phase 2A: unlimited nominal forms (lines 1977-2058) -/

/-- The case list (lines 1980-1981). -/
def nominalCases : List String :=
  ["nominative", "accusative", "instrumental", "dative",
   "ablative", "genitive", "locative", "vocative"]

/-- The number list (line 1982). -/
def grammaticalNumbers : List String :=
  ["singular", "dual", "plural"]

/-- The declinable-word pool (lines 1985-2009): base words outside the
particle/prefix fields, then proper names, then technical terms not already
in the pool (with a default masculine a-stem info record). -/
def declinableWords (baseMeanings : List (String × BaseInfo))
    (properNames : List (String × BaseInfo))
    (technicalVocabulary : List (String × List String)) :
    List (String × BaseInfo) :=
  let base := baseMeanings.filter
    (fun c => match c.2.semanticField with
      | none => true
      | some f => f ∉ (["particles", "prefixes"] : List String))
  let withNames := base ++ properNames
  technicalVocabulary.foldl (fun acc fieldTerms =>
    fieldTerms.2.foldl (fun acc term =>
      if term ∈ acc.map Prod.fst then acc
      else acc ++ [(term,
        { semanticField := some fieldTerms.1,
          register := some "technical",
          gender := "m",
          declension := "a_masculine" })]) acc) withNames

/-- The iteration sequence of the nested loops of
`_generate_unlimited_nominal_forms` (lines 2012-2018): every declinable
word with each of its genders (`_determine_all_genders` is absent from the
snapshot), each case and each number. -/
def nominalFormCandidates (declinable : List (String × BaseInfo))
    (determineAllGenders : String → BaseInfo → List String) :
    List ((String × BaseInfo) × String × String × String) :=
  declinable.flatMap (fun bi =>
    (determineAllGenders bi.1 bi.2).flatMap (fun gender =>
      nominalCases.flatMap (fun gcase =>
        grammaticalNumbers.map (fun number => (bi, gender, gcase, number)))))

/-- One innermost iteration of `_generate_unlimited_nominal_forms`
(lines 2019-2056).  `_should_skip_form`, `_apply_nominal_morphology`,
`generate_nominal_meaning`, the validator and `_calculate_form_frequency`
live in classes absent from the snapshot and are parameters; a `None`
return of the morphology applier is modelled by the empty string (both are
falsy in the `if form and ...` guard). -/
def nominalFormStep (existing : List String)
    (shouldSkipForm : String → String → BaseInfo → Bool)
    (applyNominalMorphology : String → String → String → String → String)
    (generateNominalMeaning : String → String → String → String → String)
    (validateMeaning : String → Bool) (enhanceMeaning : String → String)
    (calculateFormFrequency : String → String → String → ℚ)
    (d : Registry) (c : (String × BaseInfo) × String × String × String) : Registry :=
  let base := c.1.1
  let info := c.1.2
  let gender := c.2.1
  let gcase := c.2.2.1
  let number := c.2.2.2
  if shouldSkipForm gcase number info then d
  else
    let form := applyNominalMorphology base gcase number gender
    if form ≠ "" ∧ form ≠ base ∧ form ∉ existing ∧ hasKey d form = false ∧
        form.length > 1 then
      let meaning := generateNominalMeaning base gcase number gender
      if validateMeaning meaning then
        d ++ [(form,
          { word := form,
            meaning := enhanceMeaning meaning,
            type := "inflected_noun",
            base := base,
            gcase := gcase,
            number := number,
            gender := gender,
            semanticField := info.semanticField.getD "general",
            register := info.register,
            freq := calculateFormFrequency base gcase number })]
      else d
    else d

/-- `_generate_unlimited_nominal_forms` (lines 1977-2058).  Note that the
function reads none of the configured `self.limits` values: no budget check
appears anywhere in its loops. -/
def generateUnlimitedNominalForms (existing : List String)
    (baseMeanings properNames : List (String × BaseInfo))
    (technicalVocabulary : List (String × List String))
    (determineAllGenders : String → BaseInfo → List String)
    (shouldSkipForm : String → String → BaseInfo → Bool)
    (applyNominalMorphology : String → String → String → String → String)
    (generateNominalMeaning : String → String → String → String → String)
    (validateMeaning : String → Bool) (enhanceMeaning : String → String)
    (calculateFormFrequency : String → String → String → ℚ)
    (d : Registry) : Registry :=
  (nominalFormCandidates (declinableWords baseMeanings properNames technicalVocabulary)
      determineAllGenders).foldl
    (nominalFormStep existing shouldSkipForm applyNominalMorphology
      generateNominalMeaning validateMeaning enhanceMeaning calculateFormFrequency) d

/-! ## Phase 2B: unlimited verbal forms (lines 2060-2117) -/

/-- The person list (line 2063). -/
def verbalPersons : List String := ["1st", "2nd", "3rd"]

/-- The tense list (line 2065). -/
def verbalTenses : List String :=
  ["present", "aorist", "perfect", "future", "imperative", "optative", "conditional"]

/-- The voice list (line 2066). -/
def verbalVoices : List String :=
  ["active", "middle", "passive", "causative", "desiderative", "intensive", "denominative"]

/-- Modelled from the spec: `_should_skip_verbal_form` is inherited from
`MonumentalPaliDictionaryGenerator`, absent from the snapshot.  Spec
section 4.2 requires that "certain (tense, voice) and (person, number,
mood) combinations are invalid and must be skipped (e.g., first-person
singular imperative does not exist)", so the model skips at least that
combination and leaves any further exclusion to the parameter
`extraSkip`. -/
def shouldSkipVerbalForm (extraSkip : String → String → String → String → Bool)
    (tense person number voice : String) : Bool :=
  (tense == "imperative" && person == "1st" && number == "singular") ||
    extraSkip tense person number voice

/-- The iteration sequence of `_generate_unlimited_verbal_forms`
(lines 2069-2081): roots, voices passing `_is_valid_voice_combination`,
tenses passing `_is_valid_tense_voice_combination` (both absent from the
snapshot), persons and numbers. -/
def verbalFormCandidates (rootMeanings : List (String × BaseInfo))
    (isValidVoiceCombination : String → List String → Bool)
    (isValidTenseVoiceCombination : String → String → Bool) :
    List ((String × BaseInfo) × String × String × String × String) :=
  rootMeanings.flatMap (fun ri =>
    (verbalVoices.filter (fun voice => isValidVoiceCombination voice verbalTenses)).flatMap
      (fun voice =>
        (verbalTenses.filter (fun tense => isValidTenseVoiceCombination tense voice)).flatMap
          (fun tense =>
            verbalPersons.flatMap (fun person =>
              grammaticalNumbers.map (fun number => (ri, voice, tense, person, number))))))

/-- One innermost iteration of `_generate_unlimited_verbal_forms`
(lines 2082-2115). -/
def verbalFormStep (existing : List String)
    (extraSkip : String → String → String → String → Bool)
    (applyVerbalMorphology : String → String → String → String → String → String)
    (generateVerbalMeaning : String → String → String → String → String → String)
    (validateMeaning : String → Bool) (enhanceMeaning : String → String)
    (calculateVerbFrequency : String → String → String → String → ℚ)
    (d : Registry) (c : (String × BaseInfo) × String × String × String × String) :
    Registry :=
  let root := c.1.1
  let info := c.1.2
  let voice := c.2.1
  let tense := c.2.2.1
  let person := c.2.2.2.1
  let number := c.2.2.2.2
  if shouldSkipVerbalForm extraSkip tense person number voice then d
  else
    let form := applyVerbalMorphology root person number tense voice
    if form ≠ "" ∧ form ∉ existing ∧ hasKey d form = false ∧ form.length > 2 then
      let meaning := generateVerbalMeaning root person number tense voice
      if validateMeaning meaning then
        d ++ [(form,
          { word := form,
            meaning := enhanceMeaning meaning,
            type := "verb",
            root := root,
            person := person,
            number := number,
            tense := tense,
            voice := voice,
            semanticField := info.semanticField.getD "action",
            freq := calculateVerbFrequency tense voice person number })]
      else d
    else d

/-- `_generate_unlimited_verbal_forms` (lines 2060-2117). -/
def generateUnlimitedVerbalForms (existing : List String)
    (rootMeanings : List (String × BaseInfo))
    (isValidVoiceCombination : String → List String → Bool)
    (isValidTenseVoiceCombination : String → String → Bool)
    (extraSkip : String → String → String → String → Bool)
    (applyVerbalMorphology : String → String → String → String → String → String)
    (generateVerbalMeaning : String → String → String → String → String → String)
    (validateMeaning : String → Bool) (enhanceMeaning : String → String)
    (calculateVerbFrequency : String → String → String → String → ℚ)
    (d : Registry) : Registry :=
  (verbalFormCandidates rootMeanings isValidVoiceCombination
      isValidTenseVoiceCombination).foldl
    (verbalFormStep existing extraSkip applyVerbalMorphology generateVerbalMeaning
      validateMeaning enhanceMeaning calculateVerbFrequency) d

/-! ## Phase 2E: denominative forms (lines 2293-2352) -/

/-- The denominative suffix patterns (lines 2297-2304). -/
def denominativePatterns : List (String × String) :=
  [("-āyati", "acts like X, desires X"),
   ("-iyati", "behaves as X"),
   ("-eti", "makes into X"),
   ("-āpeti", "causes to become X"),
   ("-karoti", "does X"),
   ("-bhavati", "becomes X")]

/-- The tense list of the denominative loop (line 2316). -/
def denominativeTenses : List String :=
  ["present", "aorist", "future", "imperative", "optative"]

/-- The noun-base pool (lines 2307-2310). -/
def denominativeNounBases (baseMeanings : List (String × BaseInfo)) : List String :=
  (baseMeanings.filter (fun c => match c.2.semanticField with
    | none => false
    | some f =>
        f ∈ (["beings", "qualities", "emotions", "mind", "society", "nature"] :
          List String))).map Prod.fst

/-- The iteration sequence of `_generate_all_denominative_forms`
(lines 2313-2318). -/
def denominativeCandidates (baseMeanings : List (String × BaseInfo)) :
    List (String × (String × String) × String × String × String) :=
  (denominativeNounBases baseMeanings).flatMap (fun base =>
    denominativePatterns.flatMap (fun pat =>
      denominativeTenses.flatMap (fun tense =>
        verbalPersons.flatMap (fun person =>
          grammaticalNumbers.map (fun number => (base, pat, tense, person, number))))))

/-- One innermost iteration of `_generate_all_denominative_forms`
(lines 2319-2350), with the inline skip of first-person singular
imperatives (lines 2320-2321).  `_generate_denominative_form`,
`_get_base_meaning`, the tense templates and `_get_pronoun` are absent from
the snapshot and appear as parameters. -/
def denominativeFormStep (existing : List String)
    (generateDenominativeForm : String → String → String → String → String → String)
    (getBaseMeaning : String → String)
    (tenseTemplateActive : String → String → String)
    (getPronoun : String → String → String)
    (enhanceMeaning : String → String)
    (d : Registry) (c : String × (String × String) × String × String × String) :
    Registry :=
  let base := c.1
  let suffix := c.2.1.1
  let meaningTemplate := c.2.1.2
  let tense := c.2.2.1
  let person := c.2.2.2.1
  let number := c.2.2.2.2
  if tense = "imperative" ∧ person = "1st" ∧ number = "singular" then d
  else
    let form := generateDenominativeForm base suffix person number tense
    if form ≠ "" ∧ form ∉ existing ∧ hasKey d form = false then
      let baseMeaning := getBaseMeaning base
      let templateMeaning := pyReplace meaningTemplate "X" baseMeaning
      let verbalMeaning := tenseTemplateActive tense templateMeaning
      let pronoun := getPronoun person number
      let finalMeaning := "(" ++ pronoun ++ ") " ++ verbalMeaning
      d ++ [(form,
        { word := form,
          meaning := enhanceMeaning finalMeaning,
          type := "derivative_denominative_verbs",
          base := base,
          suffix := suffix,
          person := person,
          number := number,
          tense := tense,
          freq := 2 })]
    else d

/-- `_generate_all_denominative_forms` (lines 2293-2352). -/
def generateAllDenominativeForms (existing : List String)
    (baseMeanings : List (String × BaseInfo))
    (generateDenominativeForm : String → String → String → String → String → String)
    (getBaseMeaning : String → String)
    (tenseTemplateActive : String → String → String)
    (getPronoun : String → String → String)
    (enhanceMeaning : String → String)
    (d : Registry) : Registry :=
  (denominativeCandidates baseMeanings).foldl
    (denominativeFormStep existing generateDenominativeForm getBaseMeaning
      tenseTemplateActive getPronoun enhanceMeaning) d

/-! ## Phase 4: committing the compositor output (lines 2564-2598) -/

/-- One iteration of the commit loop of `_generate_unlimited_compounds`
(lines 2574-2594): a compositor compound is inserted only when its surface
form is neither a seed word nor already registered; a colliding candidate
is skipped silently and the loop continues. -/
def commitCompoundStep (existing : List String) (enhanceMeaning : String → String)
    (d : Registry) (c : String × CompoundInfo) : Registry :=
  if c.1 ∉ existing ∧ hasKey d c.1 = false then
    let entry : GenEntry :=
      { word := c.1,
        meaning := enhanceMeaning c.2.meaning,
        type := "compound_" ++ c.2.type,
        components := some c.2.components,
        pattern := c.2.pattern.getD "",
        semanticField := "compound",
        freq := c.2.freq }
    d ++ [(c.1,
      match c.2.depth with
      | none => entry
      | some dep => { entry with depth := some dep, baseCompound := c.2.baseCompound.getD "" })]
  else d

/-- The commit loop of `_generate_unlimited_compounds` (lines 2574-2595).
`compounds` is the dict returned by
`compound_compositor.generate_unlimited_compounds` with
`max_total = limits["compounds_per_type"]` (lines 2569-2572). -/
def generateUnlimitedCompoundsCommit (existing : List String)
    (enhanceMeaning : String → String) (compounds : List (String × CompoundInfo))
    (d : Registry) : Registry :=
  compounds.foldl (commitCompoundStep existing enhanceMeaning) d

/-! ## Phase 5: derivational universe (lines 2600-2761) -/

/-- Base selection of the main derivational loop (lines 2610-2619). -/
def derivationBases (category : String)
    (rootMeanings baseMeanings : List (String × BaseInfo)) : List String :=
  if category ∈ (["verbal_nouns", "agent_nouns"] : List String) then
    rootMeanings.map Prod.fst
  else
    (baseMeanings.filter (fun c => match c.2.semanticField with
      | none => true
      | some f => f ∉ (["particles"] : List String))).map Prod.fst

/-- The iteration sequence of the main derivational loop
(lines 2605-2622). -/
def derivationalCandidates
    (derivationPatterns : List (String × List (String × SuffixInfo)))
    (rootMeanings baseMeanings : List (String × BaseInfo)) :
    List (String × (String × SuffixInfo) × String) :=
  derivationPatterns.flatMap (fun cp =>
    cp.2.flatMap (fun spat =>
      (derivationBases cp.1 rootMeanings baseMeanings).map (fun base =>
        (cp.1, spat, base))))

/-- One iteration of the main derivational loop (lines 2622-2649). -/
def derivationalStep (existing : List String)
    (determineSemanticContext : String → String → String)
    (generateDerivativeMeaning : String → String → String → String → String)
    (enhanceMeaning : String → String)
    (calculateDerivativeFrequency : String → String → String → ℚ)
    (d : Registry) (c : String × (String × SuffixInfo) × String) : Registry :=
  let category := c.1
  let suffix := c.2.1.1
  let suffixInfo := c.2.1.2
  let base := c.2.2
  let form := (pyReplace base "√" "") ++ (pyReplace suffix "-" "")
  if form ∉ existing ∧ hasKey d form = false then
    let semanticContext := determineSemanticContext base category
    let derivativeMeaning := generateDerivativeMeaning base suffix category semanticContext
    d ++ [(form,
      { word := form,
        meaning := enhanceMeaning derivativeMeaning,
        type := "derivative_" ++ category,
        base := base,
        suffix := suffix,
        gender := suffixInfo.gender.getD "",
        freq := calculateDerivativeFrequency base suffix category })]
  else d

/-- The main loop of `_generate_complete_derivational_universe`
(lines 2600-2651). -/
def generateDerivationalMain (existing : List String)
    (derivationPatterns : List (String × List (String × SuffixInfo)))
    (rootMeanings baseMeanings : List (String × BaseInfo))
    (determineSemanticContext : String → String → String)
    (generateDerivativeMeaning : String → String → String → String → String)
    (enhanceMeaning : String → String)
    (calculateDerivativeFrequency : String → String → String → ℚ)
    (d : Registry) : Registry :=
  (derivationalCandidates derivationPatterns rootMeanings baseMeanings).foldl
    (derivationalStep existing determineSemanticContext generateDerivativeMeaning
      enhanceMeaning calculateDerivativeFrequency) d

/-- The secondary-derivation pattern table (lines 2672-2681).  The Python
dict literal writes the key `-ika` twice; the later value (`agent_nouns`)
wins, so the dict holds these seven keys in first-insertion order. -/
def secondaryPatterns : List (String × String × String) :=
  [("-tā", "abstract_nouns", "state of being X"),
   ("-tva", "abstract_nouns", "nature of X"),
   ("-ya", "abstract_nouns", "condition of X"),
   ("-ka", "diminutives", "little X"),
   ("-ika", "agent_nouns", "one who does X"),
   ("-tara", "comparison", "more X"),
   ("-tama", "comparison", "most X")]

/-- The primary-derivative snapshot of `_generate_all_secondary_derivatives`
(lines 2684-2688). -/
def primaryDerivatives (d : Registry) : Registry :=
  d.filter (fun p => pyStartsWith p.2.type "derivative_" &&
    !(["derivative_abstract_nouns", "derivative_comparison"] : List String).contains p.2.type)

/-- The iteration sequence of `_generate_all_secondary_derivatives`
(lines 2690-2691). -/
def secondaryCandidates (d : Registry) :
    List ((String × GenEntry) × String × String × String) :=
  (primaryDerivatives d).flatMap (fun pw => secondaryPatterns.map (fun pat => (pw, pat)))

/-- One iteration of `_generate_all_secondary_derivatives`
(lines 2690-2714): the committed entry records
`derivation_level = "secondary"` and frequency `primary frequency * 0.8`
(line 2710).  All committed entries carry a `frequency`, so the Python
default `2.0` of `primary_entry.get("frequency", 2.0)` never fires. -/
def secondaryStep (existing : List String)
    (generateSecondaryDerivative : String → String → String → String)
    (enhanceMeaning : String → String)
    (d : Registry) (c : (String × GenEntry) × String × String × String) : Registry :=
  let primaryWord := c.1.1
  let primaryEntry := c.1.2
  let suffix := c.2.1
  let category := c.2.2.1
  let secondaryForm := primaryWord ++ (pyReplace suffix "-" "")
  if secondaryForm ∉ existing ∧ hasKey d secondaryForm = false then
    let secondaryMeaning := generateSecondaryDerivative primaryWord suffix category
    d ++ [(secondaryForm,
      { word := secondaryForm,
        meaning := enhanceMeaning secondaryMeaning,
        type := "derivative_" ++ category,
        base := primaryWord,
        primaryBase := primaryEntry.base,
        suffix := suffix,
        derivationLevel := "secondary",
        freq := primaryEntry.freq * (8 / 10) })]
  else d

/-- `_generate_all_secondary_derivatives` (lines 2667-2716). -/
def generateAllSecondaryDerivatives (existing : List String)
    (generateSecondaryDerivative : String → String → String → String)
    (enhanceMeaning : String → String) (d : Registry) : Registry :=
  (secondaryCandidates d).foldl
    (secondaryStep existing generateSecondaryDerivative enhanceMeaning) d

/-- The tertiary pattern table (lines 2723-2726). -/
def tertiaryPatterns : List (String × String) :=
  [("-tā", "state of being X"),
   ("-ka", "little X")]

/-- The secondary-derivative snapshot, capped at 500 (lines 2729-2732). -/
def secondaryDerivativesPool (d : Registry) : Registry :=
  (d.filter (fun p => p.2.derivationLevel == "secondary")).take 500

/-- One iteration of `_generate_tertiary_derivatives` (lines 2734-2759):
the committed entry records `derivation_level = "tertiary"` and frequency
`secondary frequency * 0.7` (line 2754). -/
def tertiaryStep (existing : List String) (enhanceMeaning : String → String)
    (d : Registry) (c : (String × GenEntry) × String × String) : Registry :=
  let secondaryWord := c.1.1
  let secondaryEntry := c.1.2
  let suffix := c.2.1
  let meaningPattern := c.2.2
  let tertiaryForm := secondaryWord ++ (pyReplace suffix "-" "")
  if tertiaryForm ∉ existing ∧ hasKey d tertiaryForm = false then
    let tertiaryMeaning := pyReplace meaningPattern "X" secondaryEntry.meaning
    d ++ [(tertiaryForm,
      { word := tertiaryForm,
        meaning := enhanceMeaning tertiaryMeaning,
        type := "derivative_abstract_nouns",
        base := secondaryWord,
        secondaryBase := secondaryEntry.base,
        primaryBase := secondaryEntry.primaryBase,
        suffix := suffix,
        derivationLevel := "tertiary",
        freq := secondaryEntry.freq * (7 / 10),
        rare := true })]
  else d

/-- `_generate_tertiary_derivatives` (lines 2718-2761). -/
def generateTertiaryDerivatives (existing : List String)
    (enhanceMeaning : String → String) (d : Registry) : Registry :=
  ((secondaryDerivativesPool d).flatMap (fun sw =>
      tertiaryPatterns.map (fun pat => (sw, pat)))).foldl
    (tertiaryStep existing enhanceMeaning) d

/-! ## Phase 9: sandhi universe (lines 2996-3119) -/

/-- The compound-entry snapshot of `_generate_all_compound_boundary_sandhi`
(lines 3021-3024): entries whose type starts with `compound_` and which
carry a `components` key. -/
def compoundEntriesPool (d : Registry) : Registry :=
  d.filter (fun p => pyStartsWith p.2.type "compound_" && p.2.components.isSome)

/-- The iteration sequence of `_generate_all_compound_boundary_sandhi`
(lines 3026-3038): each boundary of each compound with at least two
components, with every alternative junction returned by
`_get_all_sandhi_alternatives` (absent from the snapshot). -/
def boundarySandhiCandidates (getAllSandhiAlternatives : String → String → List String)
    (d : Registry) : List ((String × GenEntry) × List String × Nat × String) :=
  (compoundEntriesPool d).flatMap (fun ce =>
    let components := ce.2.components.getD []
    if components.length ≥ 2 then
      (List.range (components.length - 1)).flatMap (fun i =>
        (getAllSandhiAlternatives (components.getD i "") (components.getD (i + 1) "")).map
          (fun alt => (ce, components, i, alt)))
    else [])

/-- One iteration of `_generate_all_compound_boundary_sandhi`
(lines 3038-3059): rebuild the compound with the alternative junction and
commit it only when the variant differs from the base compound's key and is
fresh. -/
def boundarySandhiStep (existing : List String)
    (d : Registry) (c : (String × GenEntry) × List String × Nat × String) : Registry :=
  let compoundWord := c.1.1
  let compoundEntry := c.1.2
  let components := c.2.1
  let i := c.2.2.1
  let alt := c.2.2.2
  let variant := String.join (components.take i ++ [alt] ++ components.drop (i + 2))
  if variant ≠ compoundWord ∧ variant ∉ existing ∧ hasKey d variant = false then
    d ++ [(variant,
      { word := variant,
        meaning := compoundEntry.meaning ++ " (alternative sandhi)",
        type := "sandhi_variant",
        base := compoundWord,
        components := some components,
        sandhiBoundary := i,
        sandhiType := "compound_boundary",
        freq := compoundEntry.freq * (9 / 10) })]
  else d

/-- `_generate_all_compound_boundary_sandhi` (lines 3016-3061). -/
def generateAllCompoundBoundarySandhi (existing : List String)
    (getAllSandhiAlternatives : String → String → List String)
    (d : Registry) : Registry :=
  (boundarySandhiCandidates getAllSandhiAlternatives d).foldl
    (boundarySandhiStep existing) d

/-- The combiner table of `_generate_all_word_combination_sandhi`
(lines 3068-3073); the prefix list comes from `kb.prefix_meanings` of the
absent parent knowledge base, truncated to its first 20 keys as in the
source. -/
def commonCombiners (prefixList : List String) : List (String × List String) :=
  [("particles", ["ca", "vā", "api", "eva", "iti", "ti", "nu", "kho", "pana", "hi", "tu"]),
   ("pronouns", ["ayaṃ", "idaṃ", "etaṃ", "taṃ", "yaṃ", "kiṃ", "so", "sā", "te"]),
   ("negations", ["na", "no", "mā", "natthi"]),
   ("prefixes", prefixList.take 20)]

/-- The high-frequency word snapshot (lines 3076-3079). -/
def highFreqWords (d : Registry) : List String :=
  ((d.filter (fun p => p.2.freq ≥ 4 && p.1.length < 12)).map Prod.fst).take 200

/-- The iteration sequence of `_generate_all_word_combination_sandhi`
(lines 3082-3092): combiner categories, combiners, high-frequency words,
both orders, and every junction returned by
`_apply_all_sandhi_to_combination` (absent from the snapshot). -/
def wordCombinationCandidates (applyAllSandhiToCombination : String → String → List String)
    (prefixList : List String) (d : Registry) :
    List (String × (String × String) × String) :=
  (commonCombiners prefixList).flatMap (fun catComb =>
    catComb.2.flatMap (fun combiner =>
      (highFreqWords d).flatMap (fun word =>
        [(combiner, word), (word, combiner)].flatMap (fun combo =>
          (applyAllSandhiToCombination combo.1 combo.2).map
            (fun combined => (catComb.1, combo, combined))))))

/-- One iteration of `_generate_all_word_combination_sandhi`
(lines 3092-3118): a variant is committed only when it is nonempty, differs
from the plain concatenation of the two fragments, is fresh, and is longer
than two characters.  Note that the function reads none of the configured
`self.limits` values. -/
def wordCombinationStep (existing : List String)
    (getWordMeaningForCombination : String → String)
    (composeCombinationMeaning : String → String → String → String)
    (enhanceMeaning : String → String)
    (d : Registry) (c : String × (String × String) × String) : Registry :=
  let category := c.1
  let first := c.2.1.1
  let second := c.2.1.2
  let combined := c.2.2
  if combined ≠ "" ∧ combined ≠ first ++ second ∧ combined ∉ existing ∧
      hasKey d combined = false ∧ combined.length > 2 then
    let firstMeaning := getWordMeaningForCombination first
    let secondMeaning := getWordMeaningForCombination second
    d ++ [(combined,
      { word := combined,
        meaning := enhanceMeaning (composeCombinationMeaning firstMeaning secondMeaning category),
        type := "sandhi_variant",
        components := some [first, second],
        category := category ++ "_combination",
        sandhiType := "word_combination",
        freq := 2 })]
  else d

/-- `_generate_all_word_combination_sandhi` (lines 3063-3119). -/
def generateAllWordCombinationSandhi (existing : List String)
    (applyAllSandhiToCombination : String → String → List String)
    (prefixList : List String)
    (getWordMeaningForCombination : String → String)
    (composeCombinationMeaning : String → String → String → String)
    (enhanceMeaning : String → String)
    (d : Registry) : Registry :=
  (wordCombinationCandidates applyAllSandhiToCombination prefixList d).foldl
    (wordCombinationStep existing getWordMeaningForCombination
      composeCombinationMeaning enhanceMeaning) d

/-! ## The full run over the embedded phases -/

/-- The parent-class helpers and knowledge-base tables that the embedded
phases consume, bundled.  Defaults give the trivial instantiation. -/
structure GenParams where
  existing : List String := []
  baseMeanings : List (String × BaseInfo) := []
  rootMeanings : List (String × BaseInfo) := []
  properNames : List (String × BaseInfo) := []
  technicalVocabulary : List (String × List String) := []
  indeclinables : List (String × IndeclInfo) := []
  derivationPatterns : List (String × List (String × SuffixInfo)) := []
  prefixList : List String := []
  compounds : List (String × CompoundInfo) := []
  mkBaseEntry : String → BaseInfo → GenEntry := fun w _ => { word := w }
  variantCands : String → BaseInfo → List (String × GenEntry) := fun _ _ => []
  enhanceMeaning : String → String := id
  determineAllGenders : String → BaseInfo → List String := fun _ _ => []
  shouldSkipForm : String → String → BaseInfo → Bool := fun _ _ _ => false
  applyNominalMorphology : String → String → String → String → String := fun _ _ _ _ => ""
  generateNominalMeaning : String → String → String → String → String := fun _ _ _ _ => ""
  validateMeaning : String → Bool := fun _ => true
  calculateFormFrequency : String → String → String → ℚ := fun _ _ _ => 0
  isValidVoiceCombination : String → List String → Bool := fun _ _ => true
  isValidTenseVoiceCombination : String → String → Bool := fun _ _ => true
  extraSkip : String → String → String → String → Bool := fun _ _ _ _ => false
  applyVerbalMorphology : String → String → String → String → String → String :=
    fun _ _ _ _ _ => ""
  generateVerbalMeaning : String → String → String → String → String → String :=
    fun _ _ _ _ _ => ""
  calculateVerbFrequency : String → String → String → String → ℚ := fun _ _ _ _ => 0
  generateDenominativeForm : String → String → String → String → String → String :=
    fun _ _ _ _ _ => ""
  getBaseMeaning : String → String := id
  tenseTemplateActive : String → String → String := fun _ m => m
  getPronoun : String → String → String := fun _ _ => ""
  determineSemanticContext : String → String → String := fun _ _ => ""
  generateDerivativeMeaning : String → String → String → String → String := fun _ _ _ _ => ""
  calculateDerivativeFrequency : String → String → String → ℚ := fun _ _ _ => 0
  generateSecondaryDerivative : String → String → String → String := fun _ _ _ => ""
  getAllSandhiAlternatives : String → String → List String := fun _ _ => []
  applyAllSandhiToCombination : String → String → List String := fun _ _ => []
  getWordMeaningForCombination : String → String := id
  composeCombinationMeaning : String → String → String → String := fun _ _ _ => ""

/-- The phase sequence of `generate_ultimate_dictionary` (lines 1830-1902)
restricted to the embedded phases, in source order: ultimate base entries,
unlimited nominal forms, unlimited verbal forms, denominative forms, the
compound commit loop, the main derivational loop, secondary and tertiary
derivatives, compound-boundary sandhi and word-combination sandhi.
`P.compounds` stands for the dict returned by the compositor in phase 4,
and the run starts from the empty registry (`self.generated_dict = {}`,
line 1810). -/
def generateUltimateDictionary (P : GenParams) : Registry :=
  let d1 := generateUltimateBaseEntries P.existing P.baseMeanings P.mkBaseEntry
    P.variantCands P.indeclinables P.enhanceMeaning []
  let d2 := generateUnlimitedNominalForms P.existing P.baseMeanings P.properNames
    P.technicalVocabulary P.determineAllGenders P.shouldSkipForm
    P.applyNominalMorphology P.generateNominalMeaning P.validateMeaning
    P.enhanceMeaning P.calculateFormFrequency d1
  let d3 := generateUnlimitedVerbalForms P.existing P.rootMeanings
    P.isValidVoiceCombination P.isValidTenseVoiceCombination P.extraSkip
    P.applyVerbalMorphology P.generateVerbalMeaning P.validateMeaning
    P.enhanceMeaning P.calculateVerbFrequency d2
  let d4 := generateAllDenominativeForms P.existing P.baseMeanings
    P.generateDenominativeForm P.getBaseMeaning P.tenseTemplateActive
    P.getPronoun P.enhanceMeaning d3
  let d5 := generateUnlimitedCompoundsCommit P.existing P.enhanceMeaning P.compounds d4
  let d6 := generateDerivationalMain P.existing P.derivationPatterns P.rootMeanings
    P.baseMeanings P.determineSemanticContext P.generateDerivativeMeaning
    P.enhanceMeaning P.calculateDerivativeFrequency d5
  let d7 := generateAllSecondaryDerivatives P.existing P.generateSecondaryDerivative
    P.enhanceMeaning d6
  let d8 := generateTertiaryDerivatives P.existing P.enhanceMeaning d7
  let d9 := generateAllCompoundBoundarySandhi P.existing P.getAllSandhiAlternatives d8
  generateAllWordCombinationSandhi P.existing P.applyAllSandhiToCombination
    P.prefixList P.getWordMeaningForCombination P.composeCombinationMeaning
    P.enhanceMeaning d9

/-! ## SearchEngine.normalize_text (src/utils/search_engine.py lines 8-12)

`normalize_text` lowercases, decomposes to NFD and drops category-Mn
characters.  The Unicode character data consumed by `str.lower` and
`unicodedata` is external to the repository; it is modelled by a
`UnicodeData` record giving, per code point, the full lowercase mapping,
the full canonical decomposition, the canonical combining class and the
general-category tests.  NFD is full canonical decomposition followed by
the canonical reordering of nonzero-combining-class runs. -/

/-- Per-code-point Unicode character data. -/
structure UnicodeData where
  lowerChar : Nat → List Nat
  decompChar : Nat → List Nat
  ccc : Nat → Nat
  isMn : Nat → Bool
  isUppercase : Nat → Bool

/-- Python `text.lower()` as the concatenation of per-character full
lowercase mappings. -/
def strLower (U : UnicodeData) (s : List Nat) : List Nat :=
  s.flatMap U.lowerChar

/-- Stable insertion of a combining character after all pending marks of
combining class not greater than its own. -/
def insertMark (U : UnicodeData) (c : Nat) : List Nat → List Nat
  | [] => [c]
  | d :: ds => if U.ccc d ≤ U.ccc c then d :: insertMark U c ds else c :: d :: ds

/-- Canonical reordering: characters of combining class 0 are barriers, and
every maximal run of nonzero-class characters is stably sorted by class. -/
def reorderAux (U : UnicodeData) (run : List Nat) : List Nat → List Nat
  | [] => run
  | c :: cs =>
      if U.ccc c = 0 then run ++ c :: reorderAux U [] cs
      else reorderAux U (insertMark U c run) cs

/-- `unicodedata.normalize('NFD', s)`: full canonical decomposition
followed by canonical reordering. -/
def nfd (U : UnicodeData) (s : List Nat) : List Nat :=
  reorderAux U [] (s.flatMap U.decompChar)

/-- `SearchEngine.normalize_text` (search_engine.py lines 8-12). -/
def normalizeText (U : UnicodeData) (s : List Nat) : List Nat :=
  (nfd U (strLower U s)).filter (fun c => !U.isMn c)

/-- Real Unicode character data restricted to the code points of the C10
counterexamples, copied from UnicodeData.txt:
U+1D16D MUSICAL SYMBOL COMBINING AUGMENTATION DOT, category Mc, ccc 226;
U+1D165 MUSICAL SYMBOL COMBINING STEM, category Mc, ccc 216;
U+0E47 THAI CHARACTER MAITAIKHU, category Mn, ccc 0;
U+03D2 GREEK UPSILON WITH HOOK SYMBOL, category Lu, no lowercase mapping.
None of the four has a canonical decomposition and all are fixed by
`str.lower`. -/
def unicodeReal : UnicodeData :=
  { lowerChar := fun c => [c]
    decompChar := fun c => [c]
    ccc := fun c => if c = 0x1D16D then 226 else if c = 0x1D165 then 216 else 0
    isMn := fun c => c == 0xE47
    isUppercase := fun c => c == 0x3D2 }

/-- Real Unicode data restricted to the code points of the C10 idempotence
witness: 'A' (U+0041, category Lu) lowercases to 'a' (U+0061); 'ā'
(U+0101) canonically decomposes to 'a' followed by U+0304 COMBINING MACRON
(category Mn, ccc 230); every other code point is inert. -/
def unicodePali : UnicodeData :=
  { lowerChar := fun c => if c = 0x41 then [0x61] else [c]
    decompChar := fun c => if c = 0x101 then [0x61, 0x304] else [c]
    ccc := fun c => if c = 0x304 then 230 else 0
    isMn := fun c => c == 0x304
    isUppercase := fun c => c == 0x41 }

/-! ## Theorems: dictionary operations -/

section DictThms

variable {α : Type}

theorem hasKey_eq_true_iff (d : List (String × α)) (k : String) :
    hasKey d k = true ↔ k ∈ keys d := by
  induction d with
  | nil => simp [hasKey, keys]
  | cons p rest ih =>
      simp only [hasKey, List.any_cons, Bool.or_eq_true, beq_iff_eq, keys,
        List.map_cons, List.mem_cons] at ih ⊢
      constructor
      · rintro (h | h)
        · exact Or.inl h.symm
        · exact Or.inr (ih.mp h)
      · rintro (h | h)
        · exact Or.inl h.symm
        · exact Or.inr (ih.mpr h)

theorem hasKey_eq_false_iff (d : List (String × α)) (k : String) :
    hasKey d k = false ↔ k ∉ keys d := by
  rw [← hasKey_eq_true_iff]
  cases h : hasKey d k <;> simp

theorem mem_keys_of_mem {d : List (String × α)} {k : String} {e : α}
    (h : (k, e) ∈ d) : k ∈ keys d :=
  List.mem_map.mpr ⟨(k, e), h, rfl⟩

theorem lookup_append_left {d : List (String × α)} {k : String} {e : α}
    (h : lookup d k = some e) (d' : List (String × α)) :
    lookup (d ++ d') k = some e := by
  induction d with
  | nil => simp [lookup] at h
  | cons p rest ih =>
      cases p with
      | mk k' e' =>
          by_cases hk : k' = k
          · simp [lookup, hk] at h ⊢
            exact h
          · simp [lookup, hk] at h ⊢
            exact ih h

theorem lookup_eq_some_of_mem {d : List (String × α)} {k : String} {e : α}
    (hmem : (k, e) ∈ d) (hnd : (keys d).Nodup) :
    lookup d k = some e := by
  induction d with
  | nil => simp at hmem
  | cons p rest ih =>
      cases p with
      | mk k' e' =>
          simp only [keys, List.map_cons, List.nodup_cons] at hnd
          rcases List.mem_cons.mp hmem with h | h
          · obtain ⟨h1, h2⟩ := (Prod.mk.injEq k e k' e') ▸ h
            subst h1
            subst h2
            simp [lookup]
          · have hk : k' ≠ k := by
              intro hkk
              apply hnd.1
              rw [hkk]
              exact mem_keys_of_mem h
            simp [lookup, hk]
            exact ih h hnd.2

end DictThms

theorem goodReg_nil (existing : List String) : GoodReg existing [] := by
  constructor
  · simp [keys]
  · intro k hk
    simp [keys] at hk

theorem goodReg_append_fresh {existing : List String} {d : Registry}
    {k : String} {e : GenEntry} (hg : GoodReg existing d)
    (hfresh : hasKey d k = false) (hex : k ∉ existing) :
    GoodReg existing (d ++ [(k, e)]) := by
  have hk : k ∉ keys d := (hasKey_eq_false_iff d k).mp hfresh
  constructor
  · have : keys (d ++ [(k, e)]) = keys d ++ [k] := by simp [keys]
    rw [this]
    exact List.Nodup.append hg.1 (by simp) (by
      intro a ha hb
      simp at hb
      exact hk (hb ▸ ha))
  · intro a ha
    have : keys (d ++ [(k, e)]) = keys d ++ [k] := by simp [keys]
    rw [this] at ha
    rcases List.mem_append.mp ha with h | h
    · exact hg.2 a h
    · simp at h
      exact h ▸ hex

theorem keys_map_update (d : Registry) (k : String) (e : GenEntry) :
    keys (d.map (fun p => if p.1 = k then (k, e) else p)) = keys d := by
  induction d with
  | nil => rfl
  | cons p rest ih =>
      simp only [List.map_cons, keys] at ih ⊢
      by_cases hp : p.1 = k
      · rw [if_pos hp]
        rw [show (k, e).1 = p.1 from hp ▸ rfl]
        exact congrArg _ ih
      · rw [if_neg hp]
        exact congrArg _ ih

theorem goodReg_dictSet {existing : List String} {d : Registry}
    {k : String} {e : GenEntry} (hg : GoodReg existing d) (hex : k ∉ existing) :
    GoodReg existing (dictSet d k e) := by
  unfold dictSet
  by_cases h : hasKey d k
  · rw [if_pos h]
    constructor
    · rw [keys_map_update]
      exact hg.1
    · intro a ha
      rw [keys_map_update] at ha
      exact hg.2 a ha
  · rw [if_neg h]
    exact goodReg_append_fresh hg (by simpa using h) hex

theorem foldl_goodReg {κ : Type} {existing : List String} {l : List κ}
    {step : Registry → κ → Registry} {P : String × GenEntry → Prop}
    (hs : StepCommits existing l step P) :
    ∀ d, GoodReg existing d → GoodReg existing (l.foldl step d) := by
  induction l with
  | nil => intro d hd; simpa using hd
  | cons c cs ih =>
      intro d hd
      have hs' : StepCommits existing cs step P := by
        intro d' c' hc'
        exact hs d' c' (List.mem_cons_of_mem _ hc')
      have hstep := hs d c (List.mem_cons_self _ _)
      rw [List.foldl_cons]
      rcases hstep with h | ⟨p, hp, hfresh, hex, _⟩
      · rw [h]
        exact ih hs' d hd
      · rw [hp]
        exact ih hs' _ (goodReg_append_fresh hd hfresh hex)

theorem foldl_lookup_preserved {κ : Type} {existing : List String} {l : List κ}
    {step : Registry → κ → Registry} {P : String × GenEntry → Prop}
    (hs : StepCommits existing l step P) :
    ∀ d k e, lookup d k = some e → lookup (l.foldl step d) k = some e := by
  induction l with
  | nil => intro d k e h; simpa using h
  | cons c cs ih =>
      intro d k e h
      have hs' : StepCommits existing cs step P := by
        intro d' c' hc'
        exact hs d' c' (List.mem_cons_of_mem _ hc')
      have hstep := hs d c (List.mem_cons_self _ _)
      rw [List.foldl_cons]
      rcases hstep with hst | ⟨p, hp, _, _, _⟩
      · rw [hst]
        exact ih hs' d k e h
      · rw [hp]
        exact ih hs' _ k e (lookup_append_left h _)

theorem foldl_mem_prop {κ : Type} {existing : List String} {l : List κ}
    {step : Registry → κ → Registry} {P : String × GenEntry → Prop}
    (hs : StepCommits existing l step P) :
    ∀ d p, p ∈ l.foldl step d → p ∈ d ∨ P p := by
  induction l with
  | nil => intro d p h; exact Or.inl (by simpa using h)
  | cons c cs ih =>
      intro d p h
      have hs' : StepCommits existing cs step P := by
        intro d' c' hc'
        exact hs d' c' (List.mem_cons_of_mem _ hc')
      rw [List.foldl_cons] at h
      rcases ih hs' _ p h with hin | hP
      · rcases hs d c (List.mem_cons_self _ _) with hst | ⟨q, hq, _, _, hPq⟩
        · exact Or.inl (hst ▸ hin)
        · rw [hq] at hin
          rcases List.mem_append.mp hin with h' | h'
          · exact Or.inl h'
          · simp at h'
            exact Or.inr (h' ▸ hPq)
      · exact Or.inr hP

/-! ## Theorems: generic fold preservation -/

theorem foldl_preserves {σ κ : Type} {Q : σ → Prop} {step : σ → κ → σ}
    (h : ∀ d c, Q d → Q (step d c)) :
    ∀ (l : List κ) (d : σ), Q d → Q (l.foldl step d) := by
  intro l
  induction l with
  | nil => intro d hd; simpa using hd
  | cons c cs ih =>
      intro d hd
      rw [List.foldl_cons]
      exact ih _ (h d c hd)

/-! ## Theorems: step characterisations of the embedded phases -/

theorem commitVariants_commits (existing : List String) (cands : List (String × GenEntry)) :
    StepCommits existing cands
      (fun d p => if p.1 ∉ existing ∧ hasKey d p.1 = false then d ++ [p] else d)
      (fun _ => True) := by
  intro d p _
  dsimp only
  split_ifs with h
  · exact Or.inr ⟨p, rfl, h.2, h.1, trivial⟩
  · exact Or.inl rfl

theorem commitVariants_goodReg (existing : List String)
    (cands : List (String × GenEntry)) {d : Registry} (hg : GoodReg existing d) :
    GoodReg existing (commitVariants existing cands d) :=
  foldl_goodReg (commitVariants_commits existing cands) d hg

theorem baseEntryStep_goodReg {existing : List String}
    {mkBaseEntry : String → BaseInfo → GenEntry}
    {variantCands : String → BaseInfo → List (String × GenEntry)}
    (d : Registry) (c : String × BaseInfo) (hg : GoodReg existing d) :
    GoodReg existing (baseEntryStep existing mkBaseEntry variantCands d c) := by
  unfold baseEntryStep
  split_ifs with h
  · exact hg
  · exact commitVariants_goodReg existing _ (goodReg_dictSet hg h)

theorem indeclStep_commits (existing : List String) (enh : String → String)
    (l : List (String × IndeclInfo)) :
    StepCommits existing l (indeclStep existing enh) (fun _ => True) := by
  intro d c _
  unfold indeclStep
  dsimp only
  split_ifs with h
  · exact Or.inr ⟨_, rfl, h.2, h.1, trivial⟩
  · exact Or.inl rfl

theorem generateUltimateBaseEntries_goodReg (existing : List String)
    (baseMeanings : List (String × BaseInfo))
    (mkBaseEntry : String → BaseInfo → GenEntry)
    (variantCands : String → BaseInfo → List (String × GenEntry))
    (indeclinables : List (String × IndeclInfo))
    (enh : String → String) {d : Registry} (hg : GoodReg existing d) :
    GoodReg existing
      (generateUltimateBaseEntries existing baseMeanings mkBaseEntry variantCands
        indeclinables enh d) := by
  unfold generateUltimateBaseEntries
  apply foldl_goodReg (indeclStep_commits existing enh indeclinables)
  exact foldl_preserves (fun d c hd => baseEntryStep_goodReg d c hd) baseMeanings d hg

theorem nominalFormStep_commits (existing : List String)
    (ssf : String → String → BaseInfo → Bool)
    (anm : String → String → String → String → String)
    (gnm : String → String → String → String → String)
    (vm : String → Bool) (em : String → String)
    (cff : String → String → String → ℚ)
    (l : List ((String × BaseInfo) × String × String × String)) :
    StepCommits existing l (nominalFormStep existing ssf anm gnm vm em cff)
      (fun _ => True) := by
  intro d c _
  unfold nominalFormStep
  dsimp only
  split_ifs with h1 h2 h3
  · exact Or.inl rfl
  · exact Or.inr ⟨_, rfl, h2.2.2.2.1, h2.2.2.1, trivial⟩
  · exact Or.inl rfl
  · exact Or.inl rfl

theorem generateUnlimitedNominalForms_goodReg (existing : List String)
    (baseMeanings properNames : List (String × BaseInfo))
    (technicalVocabulary : List (String × List String))
    (dag : String → BaseInfo → List String)
    (ssf : String → String → BaseInfo → Bool)
    (anm : String → String → String → String → String)
    (gnm : String → String → String → String → String)
    (vm : String → Bool) (em : String → String)
    (cff : String → String → String → ℚ)
    {d : Registry} (hg : GoodReg existing d) :
    GoodReg existing
      (generateUnlimitedNominalForms existing baseMeanings properNames
        technicalVocabulary dag ssf anm gnm vm em cff d) :=
  foldl_goodReg (nominalFormStep_commits existing ssf anm gnm vm em cff _) d hg

/-- The verbal-form step never commits a first-person singular imperative:
the skip guard fires before the commit. -/
theorem verbalFormStep_commits (existing : List String)
    (extraSkip : String → String → String → String → Bool)
    (avm : String → String → String → String → String → String)
    (gvm : String → String → String → String → String → String)
    (vm : String → Bool) (em : String → String)
    (cvf : String → String → String → String → ℚ)
    (l : List ((String × BaseInfo) × String × String × String × String)) :
    StepCommits existing l (verbalFormStep existing extraSkip avm gvm vm em cvf)
      (fun p => ¬(p.2.tense = "imperative" ∧ p.2.person = "1st" ∧
        p.2.number = "singular")) := by
  intro d c _
  unfold verbalFormStep
  dsimp only
  split_ifs with h1 h2 h3
  · exact Or.inl rfl
  · refine Or.inr ⟨_, rfl, h2.2.2.1, h2.2.1, ?_⟩
    rintro ⟨ht, hp, hn⟩
    apply h1
    unfold shouldSkipVerbalForm
    simp only [Bool.or_eq_true, Bool.and_eq_true, beq_iff_eq]
    exact Or.inl ⟨⟨ht, hp⟩, hn⟩
  · exact Or.inl rfl
  · exact Or.inl rfl

theorem generateUnlimitedVerbalForms_goodReg (existing : List String)
    (rootMeanings : List (String × BaseInfo))
    (ivvc : String → List String → Bool) (ivtv : String → String → Bool)
    (extraSkip : String → String → String → String → Bool)
    (avm : String → String → String → String → String → String)
    (gvm : String → String → String → String → String → String)
    (vm : String → Bool) (em : String → String)
    (cvf : String → String → String → String → ℚ)
    {d : Registry} (hg : GoodReg existing d) :
    GoodReg existing
      (generateUnlimitedVerbalForms existing rootMeanings ivvc ivtv extraSkip
        avm gvm vm em cvf d) :=
  foldl_goodReg (verbalFormStep_commits existing extraSkip avm gvm vm em cvf _) d hg

/-- The denominative step never commits a first-person singular imperative:
the inline skip (source lines 2320-2321) fires before the commit. -/
theorem denominativeFormStep_commits (existing : List String)
    (gdf : String → String → String → String → String → String)
    (gbm : String → String) (tta : String → String → String)
    (gp : String → String → String) (em : String → String)
    (l : List (String × (String × String) × String × String × String)) :
    StepCommits existing l (denominativeFormStep existing gdf gbm tta gp em)
      (fun p => ¬(p.2.tense = "imperative" ∧ p.2.person = "1st" ∧
        p.2.number = "singular")) := by
  intro d c _
  unfold denominativeFormStep
  dsimp only
  split_ifs with h1 h2
  · exact Or.inl rfl
  · refine Or.inr ⟨_, rfl, h2.2.2, h2.2.1, ?_⟩
    exact h1
  · exact Or.inl rfl

theorem generateAllDenominativeForms_goodReg (existing : List String)
    (baseMeanings : List (String × BaseInfo))
    (gdf : String → String → String → String → String → String)
    (gbm : String → String) (tta : String → String → String)
    (gp : String → String → String) (em : String → String)
    {d : Registry} (hg : GoodReg existing d) :
    GoodReg existing
      (generateAllDenominativeForms existing baseMeanings gdf gbm tta gp em d) :=
  foldl_goodReg (denominativeFormStep_commits existing gdf gbm tta gp em _) d hg

theorem commitCompoundStep_commits (existing : List String) (em : String → String)
    (l : List (String × CompoundInfo)) :
    StepCommits existing l (commitCompoundStep existing em) (fun _ => True) := by
  intro d c _
  unfold commitCompoundStep
  dsimp only
  split_ifs with h
  · cases hdep : c.2.depth with
    | none => exact Or.inr ⟨_, rfl, h.2, h.1, trivial⟩
    | some dep => exact Or.inr ⟨_, rfl, h.2, h.1, trivial⟩
  · exact Or.inl rfl

theorem generateUnlimitedCompoundsCommit_goodReg (existing : List String)
    (em : String → String) (compounds : List (String × CompoundInfo))
    {d : Registry} (hg : GoodReg existing d) :
    GoodReg existing (generateUnlimitedCompoundsCommit existing em compounds d) :=
  foldl_goodReg (commitCompoundStep_commits existing em compounds) d hg

theorem derivationalStep_commits (existing : List String)
    (dsc : String → String → String)
    (gdm : String → String → String → String → String)
    (em : String → String) (cdf : String → String → String → ℚ)
    (l : List (String × (String × SuffixInfo) × String)) :
    StepCommits existing l (derivationalStep existing dsc gdm em cdf)
      (fun _ => True) := by
  intro d c _
  unfold derivationalStep
  dsimp only
  split_ifs with h
  · exact Or.inr ⟨_, rfl, h.2, h.1, trivial⟩
  · exact Or.inl rfl

theorem generateDerivationalMain_goodReg (existing : List String)
    (derivationPatterns : List (String × List (String × SuffixInfo)))
    (rootMeanings baseMeanings : List (String × BaseInfo))
    (dsc : String → String → String)
    (gdm : String → String → String → String → String)
    (em : String → String) (cdf : String → String → String → ℚ)
    {d : Registry} (hg : GoodReg existing d) :
    GoodReg existing
      (generateDerivationalMain existing derivationPatterns rootMeanings
        baseMeanings dsc gdm em cdf d) :=
  foldl_goodReg (derivationalStep_commits existing dsc gdm em cdf _) d hg

theorem secondaryStep_commits (existing : List String)
    (gsd : String → String → String → String) (em : String → String)
    (l : List ((String × GenEntry) × String × String × String)) :
    StepCommits existing l (secondaryStep existing gsd em) (fun _ => True) := by
  intro d c _
  unfold secondaryStep
  dsimp only
  split_ifs with h
  · exact Or.inr ⟨_, rfl, h.2, h.1, trivial⟩
  · exact Or.inl rfl

theorem generateAllSecondaryDerivatives_goodReg (existing : List String)
    (gsd : String → String → String → String) (em : String → String)
    {d : Registry} (hg : GoodReg existing d) :
    GoodReg existing (generateAllSecondaryDerivatives existing gsd em d) :=
  foldl_goodReg (secondaryStep_commits existing gsd em _) d hg

theorem tertiaryStep_commits (existing : List String) (em : String → String)
    (l : List ((String × GenEntry) × String × String)) :
    StepCommits existing l (tertiaryStep existing em) (fun _ => True) := by
  intro d c _
  unfold tertiaryStep
  dsimp only
  split_ifs with h
  · exact Or.inr ⟨_, rfl, h.2, h.1, trivial⟩
  · exact Or.inl rfl

theorem generateTertiaryDerivatives_goodReg (existing : List String)
    (em : String → String) {d : Registry} (hg : GoodReg existing d) :
    GoodReg existing (generateTertiaryDerivatives existing em d) :=
  foldl_goodReg (tertiaryStep_commits existing em _) d hg

/-- Every compound-boundary sandhi variant committed differs from its base
compound's key: the guard `variant != compound_word` (line 3043) precedes
the commit, and the committed entry records that compound as `base`. -/
theorem boundarySandhiStep_commits (existing : List String)
    (l : List ((String × GenEntry) × List String × Nat × String)) :
    StepCommits existing l (boundarySandhiStep existing)
      (fun p => p.2.type = "sandhi_variant" ∧ p.1 ≠ p.2.base) := by
  intro d c _
  unfold boundarySandhiStep
  dsimp only
  split_ifs with h
  · exact Or.inr ⟨_, rfl, h.2.2, h.2.1, rfl, h.1⟩
  · exact Or.inl rfl

theorem generateAllCompoundBoundarySandhi_goodReg (existing : List String)
    (gas : String → String → List String) {d : Registry} (hg : GoodReg existing d) :
    GoodReg existing (generateAllCompoundBoundarySandhi existing gas d) :=
  foldl_goodReg (boundarySandhiStep_commits existing _) d hg

/-- Every word-combination sandhi variant committed differs from the plain
concatenation of its two fragments: the guard
`combined != first + second` (line 3094) precedes the commit, and the
committed entry records the two fragments as `components`. -/
theorem wordCombinationStep_commits (existing : List String)
    (gwm : String → String) (ccm : String → String → String → String)
    (em : String → String)
    (l : List (String × (String × String) × String)) :
    StepCommits existing l (wordCombinationStep existing gwm ccm em)
      (fun p => p.2.type = "sandhi_variant" ∧
        ∃ f s, p.2.components = some [f, s] ∧ p.1 ≠ f ++ s) := by
  intro d c _
  unfold wordCombinationStep
  dsimp only
  split_ifs with h
  · exact Or.inr ⟨_, rfl, h.2.2.2.1, h.2.2.1, rfl, c.2.1.1, c.2.1.2, rfl, h.2.1⟩
  · exact Or.inl rfl

theorem generateAllWordCombinationSandhi_goodReg (existing : List String)
    (aas : String → String → List String) (prefixList : List String)
    (gwm : String → String) (ccm : String → String → String → String)
    (em : String → String) {d : Registry} (hg : GoodReg existing d) :
    GoodReg existing
      (generateAllWordCombinationSandhi existing aas prefixList gwm ccm em d) :=
  foldl_goodReg (wordCombinationStep_commits existing gwm ccm em _) d hg

/-! ## Claim C1 -/

/-- C1: for every full generation run over the embedded phases, every key
of the final output mapping is distinct, and no generated entry's key
equals a key of the seed/pre-existing dictionary (`self.existing_words`):
every commit site is guarded at least by membership in the existing-word
set, and registry writes keep keys unique. -/
theorem generateUltimateDictionary_unique_and_fresh (P : GenParams) :
    (keys (generateUltimateDictionary P)).Nodup ∧
      ∀ k ∈ keys (generateUltimateDictionary P), k ∉ P.existing := by
  have hg : GoodReg P.existing (generateUltimateDictionary P) := by
    unfold generateUltimateDictionary
    apply generateAllWordCombinationSandhi_goodReg
    apply generateAllCompoundBoundarySandhi_goodReg
    apply generateTertiaryDerivatives_goodReg
    apply generateAllSecondaryDerivatives_goodReg
    apply generateDerivationalMain_goodReg
    apply generateUnlimitedCompoundsCommit_goodReg
    apply generateAllDenominativeForms_goodReg
    apply generateUnlimitedVerbalForms_goodReg
    apply generateUnlimitedNominalForms_goodReg
    apply generateUltimateBaseEntries_goodReg
    exact goodReg_nil P.existing
  exact hg

/-- A small concrete run for the C1 witness: one seed word and one base
word. -/
def c1Params : GenParams :=
  { existing := ["māra"], baseMeanings := [("buddha", {})] }

/-- Witness for C1: in the concrete run, the generated key `buddha` is in
the output and is not a seed word, and the output keys are distinct. -/
theorem generateUltimateDictionary_unique_and_fresh_witness :
    (("buddha" : String) ∉ (["māra"] : List String)) ∧
      (keys (generateUltimateDictionary c1Params)).Nodup :=
  ⟨(generateUltimateDictionary_unique_and_fresh c1Params).2 "buddha" (by decide),
   (generateUltimateDictionary_unique_and_fresh c1Params).1⟩

/-! ## Claims C4 and C5: the meaningfulness filter and the compound-type
table -/

theorem any_contains_eq_false {g L : List String} (h : ∀ f ∈ g, f ∉ L) :
    (g.any fun f => L.contains f) = false := by
  rw [List.any_eq_false]
  intro f hf hc
  exact h f hf (List.elem_iff.mp hc)

/-- Semantic fields for the C4 counterexample: the particle `ca` and the
verbal prefix `anu`, tagged with the closed categories the knowledge base
uses (`particles` and `prefixes`; compare the field filter at source line
1989 and the blocklist at lines 1693-1697). -/
def closedPairFields : String → List String :=
  fun w => if w = "ca" then ["particles"] else if w = "anu" then ["prefixes"] else []

/-- C4 counterexample: a pair in which both components belong to closed
grammatical categories (one a particle, one a prefix) is nonetheless
accepted by the meaningfulness filter, because the blocklist only matches
pairs drawn from the same closed category. -/
theorem isMeaningfulCombination_cross_closed_counterexample :
    closedPairFields "ca" = ["particles"] ∧
    closedPairFields "anu" = ["prefixes"] ∧
    isMeaningfulCombination closedPairFields "ca" "anu" = true := by
  decide

/-- C4 amended: the meaningfulness filter rejects exactly the pairs in
which both words share one and the same closed category (particles with
particles, prefixes with prefixes, numbers with numbers); every other pair
is permitted, so it is a blocklist with default allow. -/
theorem isMeaningfulCombination_eq_false_iff (gsf : String → List String)
    (w1 w2 : String) :
    isMeaningfulCombination gsf w1 w2 = false ↔
      (("particles" ∈ gsf w1 ∧ "particles" ∈ gsf w2) ∨
       ("prefixes" ∈ gsf w1 ∧ "prefixes" ∈ gsf w2) ∨
       ("numbers" ∈ gsf w1 ∧ "numbers" ∈ gsf w2)) := by
  unfold isMeaningfulCombination
  dsimp only
  have hA : (meaninglessCombinations.any (comboMatches (gsf w1) (gsf w2)) = true) ↔
      (("particles" ∈ gsf w1 ∧ "particles" ∈ gsf w2) ∨
       ("prefixes" ∈ gsf w1 ∧ "prefixes" ∈ gsf w2) ∨
       ("numbers" ∈ gsf w1 ∧ "numbers" ∈ gsf w2)) := by
    simp [meaninglessCombinations, comboMatches, List.any_eq_true, List.elem_iff]
  rw [← hA]
  split_ifs with h hB
  · simp [h]
  · simp [h]
  · simp [h]

/-- Fields function for the C4 witness: every word is a bare particle. -/
def particleFields : String → List String := fun _ => ["particles"]

/-- Witness for C4 amended: applying the characterisation to two particles
shows the filter rejects the pair (the spec's two-particles example). -/
theorem isMeaningfulCombination_eq_false_iff_witness :
    isMeaningfulCombination particleFields "ca" "pi" = false :=
  (isMeaningfulCombination_eq_false_iff particleFields "ca" "pi").mpr
    (Or.inl ⟨by decide, by decide⟩)

/-- Semantic fields for the C5 counterexample: two words both tagged with
the single field `beings`. -/
def beingsFields : String → List String := fun _ => ["beings"]

/-- C5 counterexample: two components with identical semantic-field tags
(`beings` and `beings`) classify as `tatpurusa`, not as the coordinative
`dvandva` type, because the first-component `beings`/`society` rule fires
before the identical-fields rule. -/
theorem determineCompoundType_identical_fields_counterexample :
    beingsFields "deva" = beingsFields "nāga" ∧
    determineCompoundType beingsFields "deva" "nāga" = "tatpurusa" ∧
    determineCompoundType beingsFields "deva" "nāga" ≠ "dvandva" := by
  refine ⟨rfl, by decide, by decide⟩

/-- C5 amended: identical semantic-field tags classify as the coordinative
(dvandva) type only when no earlier rule of the decision chain fires: the
first component's fields must avoid `beings`/`society` and
`qualities`/`colors`, and the second component's fields must avoid
`body`/`faculties`.  Under those conditions identical fields give
`dvandva`. -/
theorem determineCompoundType_dvandva_of_identical (gsf : String → List String)
    (w1 w2 : String)
    (h1 : ∀ f ∈ gsf w1, f ∉ (["beings", "society"] : List String))
    (h2 : ∀ f ∈ gsf w1, f ∉ (["qualities", "colors"] : List String))
    (h3 : ∀ f ∈ gsf w2, f ∉ (["body", "faculties"] : List String))
    (heq : gsf w1 = gsf w2) :
    determineCompoundType gsf w1 w2 = "dvandva" := by
  unfold determineCompoundType
  dsimp only
  rw [any_contains_eq_false h1, any_contains_eq_false h2, any_contains_eq_false h3]
  simp [heq]

/-- Fields function for the C5 witness: every word is tagged with the
single field `religious_core` (the spec's buddha/dhamma scenario). -/
def religiousCoreFields : String → List String := fun _ => ["religious_core"]

/-- Witness for C5 amended: two components both tagged `religious_core`
classify as `dvandva`. -/
theorem determineCompoundType_dvandva_of_identical_witness :
    determineCompoundType religiousCoreFields "buddha" "dhamma" = "dvandva" :=
  determineCompoundType_dvandva_of_identical religiousCoreFields "buddha" "dhamma"
    (by decide) (by decide) (by decide) rfl

/-! ## Claims C2, C3 and C8: budgets, iteration order and first-writer-wins
in the compound phase -/

/-- The inner basic-combination step either leaves the compositor state
unchanged or, when the budget has not been reached, commits exactly one
fresh compound and increments the count. -/
theorem basicCombinationStep_cases (gsf : String → List String)
    (sandhi : List String → String) (compose : List String → String → String)
    (wf : String → ℚ) (maxCount : Nat) (i : Nat) (w1 : String)
    (st : CombosState) (jw : Nat × String) :
    basicCombinationStep gsf sandhi compose wf maxCount i w1 st jw = st ∨
      (st.count < maxCount ∧
        ∃ k info,
          hasKey st.compounds k = false ∧
          basicCombinationStep gsf sandhi compose wf maxCount i w1 st jw =
            { compounds := st.compounds ++ [(k, info)],
              generatedCompounds := st.generatedCompounds ++ [k],
              count := st.count + 1 }) := by
  unfold basicCombinationStep
  dsimp only
  split_ifs with h1 h2 h3
  · exact Or.inl rfl
  · refine Or.inr ⟨?_, sandhi [w1, jw.2], _, h3.1, rfl⟩
    exact Nat.lt_of_not_ge (fun hge => h1 (Or.inr hge))
  · exact Or.inl rfl
  · exact Or.inl rfl

theorem basicCombinationsOuter_preserves {Q : CombosState → Prop}
    (gsf : String → List String) (sandhi : List String → String)
    (compose : List String → String → String) (wf : String → ℚ)
    (maxCount : Nat) (allEnum : List (Nat × String))
    (hstep : ∀ st i w1 jw,
      Q st → Q (basicCombinationStep gsf sandhi compose wf maxCount i w1 st jw)) :
    ∀ (l : List (Nat × String)) (st : CombosState), Q st →
      Q (basicCombinationsOuter gsf sandhi compose wf maxCount allEnum l st) := by
  intro l
  induction l with
  | nil =>
      intro st h
      simpa [basicCombinationsOuter] using h
  | cons p rest ih =>
      intro st h
      cases p with
      | mk i w1 =>
          unfold basicCombinationsOuter
          split_ifs with hc
          · exact h
          · exact ih _ (foldl_preserves (fun st jw hq => hstep st i w1 jw hq) allEnum st h)

/-- The basic-combination sub-phase of the compound phase respects its
budget: the number of compounds it produces never exceeds `max_count`
(each commit requires `count < max_count`, and once the budget is reached
every remaining candidate is skipped by the `count >= max_count`
guards). -/
theorem generateAllBasicCombinations_budget (gsf : String → List String)
    (sandhi : List String → String) (compose : List String → String → String)
    (wf : String → ℚ) (allWords : List String) (maxCount : Nat)
    (gc0 : List String) :
    (generateAllBasicCombinations gsf sandhi compose wf allWords maxCount
      gc0).compounds.length ≤ maxCount := by
  have h := basicCombinationsOuter_preserves
    (Q := fun st => st.compounds.length = st.count ∧ st.count ≤ maxCount)
    gsf sandhi compose wf maxCount allWords.enum
    (by
      intro st i w1 jw hq
      rcases basicCombinationStep_cases gsf sandhi compose wf maxCount i w1 st jw with
        heq | ⟨hlt, k, info, _, heq⟩
      · rw [heq]
        exact hq
      · rw [heq]
        exact ⟨by simp [hq.1], Nat.succ_le_of_lt hlt⟩)
    allWords.enum
    { compounds := [], generatedCompounds := gc0, count := 0 }
    ⟨by simp, Nat.zero_le _⟩
  calc (generateAllBasicCombinations gsf sandhi compose wf allWords maxCount
          gc0).compounds.length
      = _ := h.1
    _ ≤ maxCount := h.2

/-- A single ordering step of the religious sub-phase either leaves the
state unchanged or commits exactly one fresh compound, incrementing the
count — with no budget condition. -/
theorem religiousOrderStep_cases (sandhi : List String → String)
    (gwm : String → String) (core : String) (st : CombosState)
    (pair : String × String) :
    religiousOrderStep sandhi gwm core st pair = st ∨
      ∃ k info,
        hasKey st.compounds k = false ∧
        religiousOrderStep sandhi gwm core st pair =
          { compounds := st.compounds ++ [(k, info)],
            generatedCompounds := st.generatedCompounds ++ [k],
            count := st.count + 1 } := by
  unfold religiousOrderStep
  dsimp only
  split_ifs with h1 h2
  · exact Or.inl rfl
  · exact Or.inr ⟨_, _, h2.1, rfl⟩
  · exact Or.inl rfl

theorem religiousOrderStep_count (sandhi : List String → String)
    (gwm : String → String) (core : String) (st : CombosState)
    (pair : String × String) :
    (religiousOrderStep sandhi gwm core st pair).count ≤ st.count + 1 ∧
      (st.compounds.length = st.count →
        (religiousOrderStep sandhi gwm core st pair).compounds.length =
          (religiousOrderStep sandhi gwm core st pair).count) := by
  rcases religiousOrderStep_cases sandhi gwm core st pair with h | ⟨k, info, _, h⟩
  · rw [h]
    exact ⟨Nat.le_succ _, fun hp => hp⟩
  · rw [h]
    constructor
    · exact Nat.le_refl _
    · intro hp
      simp [hp]

/-- The two-orderings inner loop raises the count by at most two and keeps
the dict length equal to the count. -/
theorem religiousPairFold_count (sandhi : List String → String)
    (gwm : String → String) (core : String) (st : CombosState) (other : String) :
    ([(core, other), (other, core)].foldl
        (religiousOrderStep sandhi gwm core) st).count ≤ st.count + 2 ∧
      (st.compounds.length = st.count →
        ([(core, other), (other, core)].foldl
            (religiousOrderStep sandhi gwm core) st).compounds.length =
          ([(core, other), (other, core)].foldl
              (religiousOrderStep sandhi gwm core) st).count) := by
  have h1 := religiousOrderStep_count sandhi gwm core st (core, other)
  have h2 := religiousOrderStep_count sandhi gwm core
    (religiousOrderStep sandhi gwm core st (core, other)) (other, core)
  constructor
  · exact le_trans h2.1 (Nat.succ_le_succ h1.1)
  · intro hp
    exact h2.2 (h1.2 hp)

theorem religiousOtherLoop_bound (sandhi : List String → String)
    (gwm : String → String) (maxCount : Nat) (core : String) :
    ∀ (others : List String) (st : CombosState),
      st.compounds.length = st.count → st.count ≤ maxCount + 1 →
      (religiousOtherLoop sandhi gwm maxCount core others st).compounds.length =
          (religiousOtherLoop sandhi gwm maxCount core others st).count ∧
        (religiousOtherLoop sandhi gwm maxCount core others st).count ≤ maxCount + 1 := by
  intro others
  induction others with
  | nil =>
      intro st hp hb
      exact ⟨hp, hb⟩
  | cons other rest ih =>
      intro st hp hb
      unfold religiousOtherLoop
      split_ifs with hc
      · exact ⟨hp, hb⟩
      · have hfold := religiousPairFold_count sandhi gwm core st other
        refine ih _ (hfold.2 hp) ?_
        have hlt : st.count < maxCount := Nat.lt_of_not_ge hc
        exact le_trans hfold.1 (by omega)

theorem religiousCoreLoop_bound (sandhi : List String → String)
    (gwm : String → String) (maxCount : Nat) (allOthers : List String) :
    ∀ (cores : List String) (st : CombosState),
      st.compounds.length = st.count → st.count ≤ maxCount + 1 →
      (religiousCoreLoop sandhi gwm maxCount allOthers cores st).compounds.length =
          (religiousCoreLoop sandhi gwm maxCount allOthers cores st).count ∧
        (religiousCoreLoop sandhi gwm maxCount allOthers cores st).count ≤ maxCount + 1 := by
  intro cores
  induction cores with
  | nil =>
      intro st hp hb
      exact ⟨hp, hb⟩
  | cons core rest ih =>
      intro st hp hb
      unfold religiousCoreLoop
      split_ifs with hc
      · exact ⟨hp, hb⟩
      · have hother := religiousOtherLoop_bound sandhi gwm maxCount core allOthers st hp hb
        exact ih _ hother.1 hother.2

theorem generateReligiousPhilosophicalCompounds_bound
    (sandhi : List String → String) (gwm : String → String)
    (allOthers : List String) (maxCount : Nat) (gc1 : List String) :
    (generateReligiousPhilosophicalCompounds sandhi gwm allOthers maxCount
      gc1).compounds.length ≤ maxCount + 1 := by
  have h := religiousCoreLoop_bound sandhi gwm maxCount allOthers
    (religiousCores ++ philosophicalCores)
    { compounds := [], generatedCompounds := gc1, count := 0 }
    (by simp) (Nat.zero_le _)
  calc (generateReligiousPhilosophicalCompounds sandhi gwm allOthers maxCount
          gc1).compounds.length
      = _ := h.1
    _ ≤ maxCount + 1 := h.2

/-- C8: first-writer-wins.  (1) In the commit loop of
`_generate_unlimited_compounds`, a compositor candidate whose surface form
is already registered is discarded and the previously stored entry is left
unchanged (the run continues; the fold is total).  (2) In the
basic-combination loop of the compositor, a binding already present in the
local compound dict is never replaced by a later candidate. -/
theorem firstWriterWins (existing : List String) (em : String → String)
    (compounds : List (String × CompoundInfo))
    (gsf : String → List String) (sandhi : List String → String)
    (compose : List String → String → String) (wf : String → ℚ)
    (maxCount : Nat) (allEnum l : List (Nat × String)) :
    (∀ (d : Registry) (k : String) (e : GenEntry), lookup d k = some e →
        lookup (generateUnlimitedCompoundsCommit existing em compounds d) k = some e) ∧
    (∀ (st : CombosState) (k : String) (info : CompoundInfo),
        lookup st.compounds k = some info →
        lookup (basicCombinationsOuter gsf sandhi compose wf maxCount allEnum l
          st).compounds k = some info) := by
  constructor
  · intro d k e h
    exact foldl_lookup_preserved (commitCompoundStep_commits existing em compounds) d k e h
  · intro st k info h
    exact basicCombinationsOuter_preserves
      (Q := fun st => lookup st.compounds k = some info)
      gsf sandhi compose wf maxCount allEnum
      (by
        intro st i w1 jw hq
        rcases basicCombinationStep_cases gsf sandhi compose wf maxCount i w1 st jw with
          heq | ⟨_, k', info', _, heq⟩
        · rw [heq]
          exact hq
        · rw [heq]
          exact lookup_append_left hq _)
      l st h

/-- A registry holding one compound entry, and a compositor output that
collides with it, for the C8 witness. -/
def collisionRegistry : Registry :=
  [("dhammacakka",
    { word := "dhammacakka"
      meaning := "wheel of the dhamma"
      type := "compound_tatpurusa"
      freq := 3 })]

/-- A colliding compositor candidate for the C8 witness. -/
def collisionCompounds : List (String × CompoundInfo) :=
  [("dhammacakka",
    { components := ["dhamma", "cakka"]
      type := "dvandva"
      meaning := "colliding candidate"
      freq := 1 })]

/-- Witness for C8: committing a colliding compositor candidate leaves the
previously stored entry unchanged. -/
theorem firstWriterWins_witness :
    lookup (generateUnlimitedCompoundsCommit [] id collisionCompounds
        collisionRegistry) "dhammacakka" =
      some
        { word := "dhammacakka"
          meaning := "wheel of the dhamma"
          type := "compound_tatpurusa"
          freq := 3 } :=
  (firstWriterWins [] id collisionCompounds (fun _ => []) (fun _ => "")
      (fun _ _ => "") (fun _ => 3) 0 [] []).1
    collisionRegistry "dhammacakka" _ (by decide)

/-- Trivial helper instantiations for the C2 computation: no word carries
semantic fields (so every pair passes the filter and classifies by the
default), sandhi is plain concatenation (the spec's default junction), and
composed meanings are empty. -/
def noFields : String → List String := fun _ => []

/-- Plain concatenation as the compound junction. -/
def concatSandhi : List String → String := fun ws => String.join ws

/-- Empty meaning composition. -/
def emptyCompose : List String → String → String := fun _ _ => ""

/-- Constant default frequency. -/
def defaultFreq : String → ℚ := fun _ => 3

/-- C2 counterexample: the basic-combination phase run on the same
deduplicated word pool in two different enumeration orders (the orders
`list(set(...))` may yield in two runs) produces different outputs under
the same budget: with budget 1, one order commits `buddhadhamma`, the
other `dhammabuddha`. -/
theorem generateAllBasicCombinations_order_counterexample :
    (["buddha", "dhamma"] : List String).Perm ["dhamma", "buddha"] ∧
    (generateAllBasicCombinations noFields concatSandhi emptyCompose defaultFreq
        ["buddha", "dhamma"] 1 []).compounds.map Prod.fst = ["buddhadhamma"] ∧
    (generateAllBasicCombinations noFields concatSandhi emptyCompose defaultFreq
        ["dhamma", "buddha"] 1 []).compounds.map Prod.fst = ["dhammabuddha"] ∧
    generateAllBasicCombinations noFields concatSandhi emptyCompose defaultFreq
        ["buddha", "dhamma"] 1 [] ≠
      generateAllBasicCombinations noFields concatSandhi emptyCompose defaultFreq
        ["dhamma", "buddha"] 1 [] := by
  decide

/-- C2 amended: the output of the basic-combination phase is a function of
the enumeration order of its deduplicated word pool, and that dependence is
real: there exist two duplicate-free enumerations of one and the same pool
on which the phase produces different outputs.  Byte-identical runs are
therefore only guaranteed when the unordered-set iteration happens to
enumerate the pool identically in both runs. -/
theorem generateAllBasicCombinations_order_dependent :
    ∃ (L1 L2 : List String), L1.Perm L2 ∧ L1.Nodup ∧ L2.Nodup ∧
      generateAllBasicCombinations noFields concatSandhi emptyCompose defaultFreq
          L1 1 [] ≠
        generateAllBasicCombinations noFields concatSandhi emptyCompose defaultFreq
          L2 1 [] :=
  ⟨["buddha", "dhamma"], ["dhamma", "buddha"], by decide, by decide, by decide,
    by decide⟩

/-- A registry holding one high-frequency word for the C3 counterexample. -/
def sandhiBudgetRegistry : Registry :=
  [("khetta",
    { word := "khetta"
      meaning := "field"
      type := "noun"
      freq := 4 })]

/-- A sandhi-alternative table producing 101 distinct junctions for the
particle `ca` with the word `khetta`, and none otherwise. -/
def manySandhi : String → String → List String := fun f s =>
  if f = "ca" ∧ s = "khetta" then
    (List.range 101).map (fun n => "cakhetta" ++ toString n)
  else []

/-- C3 counterexample: the word-combination sandhi phase consults no
budget: with 101 available junctions for the single word `khetta` it
commits 101 variants, exceeding the configured
`sandhi_variants_per_word = 100` limit, and no candidate is ever skipped
for budget reasons. -/
theorem wordCombinationSandhi_budget_counterexample :
    (generateAllWordCombinationSandhi [] manySandhi [] id (fun _ _ _ => "") id
        sandhiBudgetRegistry).length = 102 ∧
    ((generateAllWordCombinationSandhi [] manySandhi [] id (fun _ _ _ => "") id
        sandhiBudgetRegistry).filter
      (fun p => p.2.components = some ["ca", "khetta"])).length = 101 ∧
    ultimateLimits.sandhiVariantsPerWord = 100 := by
  decide

/-- C3 amended: only the compound phase reads a budget.  Its
basic-combination sub-phase never commits more than `max_count` compounds
and skips all remaining candidates once the budget is reached; its
religious/philosophical sub-phase checks the budget only between words,
not between the two orderings of a pair, so it can overshoot by at most
one entry — it never commits more than `max_count + 1` compounds, and
with budget 1 a single word already yields 2.  The configured limits of
every other phase are never consulted (line 2571 is the only read of
`self.limits`; see the counterexample for the sandhi phase committing 101
variants of one word against the configured 100). -/
theorem compoundPhase_budget (gsf : String → List String)
    (sandhi : List String → String) (compose : List String → String → String)
    (wf : String → ℚ) (gwm : String → String)
    (allWords allOthers : List String) (maxCount : Nat) (gc0 gc1 : List String) :
    (generateAllBasicCombinations gsf sandhi compose wf allWords maxCount
        gc0).compounds.length ≤ maxCount ∧
    (generateReligiousPhilosophicalCompounds sandhi gwm allOthers maxCount
        gc1).compounds.length ≤ maxCount + 1 ∧
    (generateReligiousPhilosophicalCompounds concatSandhi id ["loka"] 1
        []).compounds.length = 2 := by
  refine ⟨generateAllBasicCombinations_budget gsf sandhi compose wf allWords maxCount gc0,
    generateReligiousPhilosophicalCompounds_bound sandhi gwm allOthers maxCount gc1, ?_⟩
  decide

/-! ## Claim C9: no first-person singular imperative is ever committed -/

/-- The attribute combination that the generator must never commit. -/
def imperativeFirstSingular (e : GenEntry) : Prop :=
  e.tense = "imperative" ∧ e.person = "1st" ∧ e.number = "singular"

/-- C9: if the registry holds no first-person singular imperative on entry,
then after the verbal-form phase and after the denominative phase it still
holds none: the verbal phase's skip predicate and the denominative phase's
inline skip discard that combination before any commit. -/
theorem no_imperative_first_singular (existing : List String)
    (rootMeanings baseMeanings : List (String × BaseInfo))
    (ivvc : String → List String → Bool) (ivtv : String → String → Bool)
    (extraSkip : String → String → String → String → Bool)
    (avm : String → String → String → String → String → String)
    (gvm : String → String → String → String → String → String)
    (vm : String → Bool) (em : String → String)
    (cvf : String → String → String → String → ℚ)
    (gdf : String → String → String → String → String → String)
    (gbm : String → String) (tta : String → String → String)
    (gp : String → String → String)
    (d : Registry) (hd : ∀ p ∈ d, ¬ imperativeFirstSingular p.2) :
    (∀ p ∈ generateUnlimitedVerbalForms existing rootMeanings ivvc ivtv extraSkip
        avm gvm vm em cvf d, ¬ imperativeFirstSingular p.2) ∧
    (∀ p ∈ generateAllDenominativeForms existing baseMeanings gdf gbm tta gp em d,
        ¬ imperativeFirstSingular p.2) := by
  constructor
  · intro p h
    rcases foldl_mem_prop (verbalFormStep_commits existing extraSkip avm gvm vm em cvf _)
        d p h with hin | hP
    · exact hd p hin
    · exact hP
  · intro p h
    rcases foldl_mem_prop (denominativeFormStep_commits existing gdf gbm tta gp em _)
        d p h with hin | hP
    · exact hd p hin
    · exact hP

/-- Base words for the C9 witness: one noun in the `beings` field. -/
def c9Bases : List (String × BaseInfo) :=
  [("mitta", { semanticField := some "beings" })]

/-- Denominative form builder for the C9 witness: produces a form for a
single candidate tuple and nothing else. -/
def c9DenomForm : String → String → String → String → String → String :=
  fun b sfx p n t =>
    if sfx = "-eti" ∧ t = "present" ∧ p = "3rd" ∧ n = "singular" then b ++ "eti" else ""

/-- The single entry the C9 witness run commits. -/
def c9Entry : GenEntry :=
  { word := "mittaeti"
    meaning := "() makes into mitta"
    type := "derivative_denominative_verbs"
    base := "mitta"
    suffix := "-eti"
    person := "3rd"
    number := "singular"
    tense := "present"
    freq := 2 }

/-- Witness for C9: the concrete denominative run commits `mittaeti`, and
the theorem shows it is not a first-person singular imperative. -/
theorem no_imperative_first_singular_witness :
    ¬ imperativeFirstSingular c9Entry :=
  (no_imperative_first_singular [] [] c9Bases (fun _ _ => true) (fun _ _ => true)
      (fun _ _ _ _ => false) (fun _ _ _ _ _ => "") (fun _ _ _ _ _ => "")
      (fun _ => true) id (fun _ _ _ _ => 0) c9DenomForm id (fun _ m => m)
      (fun _ _ => "") [] (by simp)).2
    ("mittaeti", c9Entry) (by decide)

/-! ## Claim C7: sandhi variants never equal the primary join output -/

/-- C7: every entry committed by the compound-boundary sandhi phase is a
sandhi variant whose key differs from its base compound's key, and every
entry committed by the word-combination sandhi phase is a sandhi variant
whose key differs from the plain concatenation of its two fragments. -/
theorem sandhiVariants_differ_from_primary (existing : List String)
    (gas : String → String → List String)
    (aas : String → String → List String) (prefixList : List String)
    (gwm : String → String) (ccm : String → String → String → String)
    (em : String → String) (d : Registry) :
    (∀ p ∈ generateAllCompoundBoundarySandhi existing gas d,
        p ∈ d ∨ (p.2.type = "sandhi_variant" ∧ p.1 ≠ p.2.base)) ∧
    (∀ p ∈ generateAllWordCombinationSandhi existing aas prefixList gwm ccm em d,
        p ∈ d ∨ (p.2.type = "sandhi_variant" ∧
          ∃ f s, p.2.components = some [f, s] ∧ p.1 ≠ f ++ s)) := by
  constructor
  · intro p h
    exact foldl_mem_prop (boundarySandhiStep_commits existing _) d p h
  · intro p h
    exact foldl_mem_prop (wordCombinationStep_commits existing gwm ccm em _) d p h

/-- The compound entry for the C7 witness. -/
def c7Compound : GenEntry :=
  { word := "buddhadhamma"
    meaning := "teaching of the awakened one"
    type := "compound_dvandva"
    components := some ["buddha", "dhamma"]
    freq := 3 }

/-- A registry holding one compound entry for the C7 witness. -/
def c7Registry : Registry :=
  [("buddhadhamma", c7Compound)]

/-- Sandhi alternatives for the C7 witness: one alternative junction for
the boundary between the two components. -/
def c7Alternatives : String → String → List String := fun f s =>
  if f = "buddha" ∧ s = "dhamma" then ["buddhādhamma"] else []

/-- The sandhi-variant entry the C7 witness run commits. -/
def c7Entry : GenEntry :=
  { word := "buddhādhamma"
    meaning := c7Compound.meaning ++ " (alternative sandhi)"
    type := "sandhi_variant"
    base := "buddhadhamma"
    components := some ["buddha", "dhamma"]
    sandhiBoundary := 0
    sandhiType := "compound_boundary"
    freq := c7Compound.freq * (9 / 10) }

/-- Witness for C7: the committed boundary variant's key differs from its
base compound's key. -/
theorem sandhiVariants_differ_from_primary_witness :
    ("buddhādhamma" : String) ≠ c7Entry.base := by
  have h := (sandhiVariants_differ_from_primary [] c7Alternatives
      (fun _ _ => []) [] id (fun _ _ _ => "") id c7Registry).1
    ("buddhādhamma", c7Entry)
    (List.mem_cons_of_mem _ (List.mem_cons_self _ _))
  rcases h with h | h
  · simp [c7Registry] at h
  · exact h.2

/-! ## Claim C6: derivation levels and multiplicative frequency decay -/

theorem secondaryCandidates_fst_mem {d0 : Registry}
    {c : (String × GenEntry) × String × String × String}
    (hc : c ∈ secondaryCandidates d0) : c.1 ∈ primaryDerivatives d0 := by
  rcases List.mem_flatMap.mp hc with ⟨pw, hpw, hmem⟩
  rcases List.mem_map.mp hmem with ⟨pat, _, heq⟩
  rw [← heq]
  exact hpw

/-- The secondary-derivative step, tracked with the snapshot it draws
primaries from: every commit records level `secondary`, a base that is a
primary-derivative key of the snapshot, and the primary's frequency times
0.8. -/
theorem secondaryStep_commits_freq (existing : List String)
    (gsd : String → String → String → String) (em : String → String)
    (d0 : Registry) :
    StepCommits existing (secondaryCandidates d0) (secondaryStep existing gsd em)
      (fun p => p.2.derivationLevel = "secondary" ∧
        ∃ pw pe, (pw, pe) ∈ primaryDerivatives d0 ∧ p.2.base = pw ∧
          p.2.freq = pe.freq * (8 / 10)) := by
  intro d c hc
  unfold secondaryStep
  dsimp only
  split_ifs with h
  · exact Or.inr ⟨_, rfl, h.2, h.1, rfl, c.1.1, c.1.2,
      secondaryCandidates_fst_mem hc, rfl, rfl⟩
  · exact Or.inl rfl

theorem tertiaryCandidates_fst_mem {d0 : Registry}
    {c : (String × GenEntry) × String × String}
    (hc : c ∈ (secondaryDerivativesPool d0).flatMap (fun sw =>
      tertiaryPatterns.map (fun pat => (sw, pat)))) :
    c.1 ∈ secondaryDerivativesPool d0 := by
  rcases List.mem_flatMap.mp hc with ⟨sw, hsw, hmem⟩
  rcases List.mem_map.mp hmem with ⟨pat, _, heq⟩
  rw [← heq]
  exact hsw

/-- The tertiary-derivative step, tracked with its snapshot: every commit
records level `tertiary` and the secondary's frequency times 0.7. -/
theorem tertiaryStep_commits_freq (existing : List String) (em : String → String)
    (d0 : Registry) :
    StepCommits existing
      ((secondaryDerivativesPool d0).flatMap (fun sw =>
        tertiaryPatterns.map (fun pat => (sw, pat))))
      (tertiaryStep existing em)
      (fun p => p.2.derivationLevel = "tertiary" ∧
        ∃ sw se, (sw, se) ∈ secondaryDerivativesPool d0 ∧ p.2.base = sw ∧
          p.2.freq = se.freq * (7 / 10)) := by
  intro d c hc
  unfold tertiaryStep
  dsimp only
  split_ifs with h
  · exact Or.inr ⟨_, rfl, h.2, h.1, rfl, c.1.1, c.1.2,
      tertiaryCandidates_fst_mem hc, rfl, rfl⟩
  · exact Or.inl rfl

/-- C6: every entry committed by the secondary-derivative phase records
`derivation_level = "secondary"` and a frequency equal to the frequency of
its primary derivative (the snapshot entry stored under its `base` key)
multiplied by 0.8; every entry committed by the tertiary phase records
`derivation_level = "tertiary"` and its secondary's frequency multiplied by
0.7 — a multiplicative decay at each further level. -/
theorem derivative_frequency_decay (existing : List String)
    (gsd : String → String → String → String) (em : String → String)
    (d : Registry) (hnd : (keys d).Nodup) :
    (∀ p ∈ generateAllSecondaryDerivatives existing gsd em d,
        p ∈ d ∨ (p.2.derivationLevel = "secondary" ∧
          ∃ pe, lookup d p.2.base = some pe ∧
            pyStartsWith pe.type "derivative_" = true ∧
            p.2.freq = pe.freq * (8 / 10))) ∧
    (∀ p ∈ generateTertiaryDerivatives existing em d,
        p ∈ d ∨ (p.2.derivationLevel = "tertiary" ∧
          ∃ se, lookup d p.2.base = some se ∧
            se.derivationLevel = "secondary" ∧
            p.2.freq = se.freq * (7 / 10))) := by
  constructor
  · intro p h
    rcases foldl_mem_prop (secondaryStep_commits_freq existing gsd em d) d p h with
      hin | ⟨hlev, pw, pe, hmem, hbase, hfreq⟩
    · exact Or.inl hin
    · refine Or.inr ⟨hlev, pe, ?_, ?_, hfreq⟩
      · rw [hbase]
        exact lookup_eq_some_of_mem (List.mem_of_mem_filter hmem) hnd
      · have hpred := List.of_mem_filter hmem
        simp only [Bool.and_eq_true] at hpred
        exact hpred.1
  · intro p h
    rcases foldl_mem_prop (tertiaryStep_commits_freq existing em d) d p h with
      hin | ⟨hlev, sw, se, hmem, hbase, hfreq⟩
    · exact Or.inl hin
    · have hmemf : (sw, se) ∈ d.filter (fun p => p.2.derivationLevel == "secondary") :=
        List.take_subset _ _ hmem
      refine Or.inr ⟨hlev, se, ?_, ?_, hfreq⟩
      · rw [hbase]
        exact lookup_eq_some_of_mem (List.mem_of_mem_filter hmemf) hnd
      · have hpred := List.of_mem_filter hmemf
        simpa using hpred

/-- The primary derivative (the agent noun `gamaka`) for the C6 witness. -/
def c6Primary : GenEntry :=
  { word := "gamaka"
    meaning := "one who goes"
    type := "derivative_agent_nouns"
    base := "√gam"
    freq := 3 }

/-- A registry holding one primary derivative for the C6 witness. -/
def c6Registry : Registry :=
  [("gamaka", c6Primary)]

/-- Secondary-meaning builder for the C6 witness. -/
def c6Gsd : String → String → String → String :=
  fun _ _ _ => "state of being one who goes"

/-- The abstract-noun entry the C6 witness run commits from `gamaka`. -/
def c6Entry : GenEntry :=
  { word := "gamakatā"
    meaning := "state of being one who goes"
    type := "derivative_abstract_nouns"
    base := "gamaka"
    primaryBase := "√gam"
    suffix := "-tā"
    derivationLevel := "secondary"
    freq := c6Primary.freq * (8 / 10) }

/-- Witness for C6: in the concrete run the committed `gamakatā` records
level `secondary` and frequency `3 * 0.8`. -/
theorem derivative_frequency_decay_witness :
    c6Entry.derivationLevel = "secondary" ∧ c6Entry.freq = c6Primary.freq * (8 / 10) := by
  have h := (derivative_frequency_decay [] c6Gsd id c6Registry (by decide)).1
    ("gamakatā", c6Entry)
    (List.mem_cons_of_mem _ (List.mem_cons_self _ _))
  rcases h with h | h
  · simp [c6Registry] at h
  · refine ⟨h.1, ?_⟩
    rcases h.2 with ⟨pe, hpe, _, hfreq⟩
    have hlook : lookup c6Registry c6Entry.base = some c6Primary := rfl
    have hpe' : pe = c6Primary := Option.some.inj (hpe.symm.trans hlook)
    rw [hfreq, hpe']

/-! ## Claim C10: SearchEngine.normalize_text -/

theorem insertMark_perm (U : UnicodeData) (c : Nat) :
    ∀ l : List Nat, (insertMark U c l).Perm (c :: l) := by
  intro l
  induction l with
  | nil => simp [insertMark]
  | cons d ds ih =>
      unfold insertMark
      split_ifs with h
      · exact ((ih.cons d).trans (List.Perm.swap c d ds)).symm.symm
      · exact List.Perm.refl _

theorem reorderAux_perm (U : UnicodeData) :
    ∀ (l run : List Nat), (reorderAux U run l).Perm (run ++ l) := by
  intro l
  induction l with
  | nil => intro run; simp [reorderAux]
  | cons c cs ih =>
      intro run
      unfold reorderAux
      split_ifs with h
      · exact List.Perm.append_left run ((ih []).cons c)
      · exact ((ih (insertMark U c run)).trans
          ((insertMark_perm U c run).append_right cs)).trans
          List.perm_middle.symm

theorem flatMap_eq_self {f : Nat → List Nat} :
    ∀ {l : List Nat}, (∀ c ∈ l, f c = [c]) → l.flatMap f = l := by
  intro l
  induction l with
  | nil => intro _; rfl
  | cons c cs ih =>
      intro h
      rw [List.flatMap_cons, h c (List.mem_cons_self _ _),
        ih (fun d hd => h d (List.mem_cons_of_mem _ hd))]
      rfl

theorem reorderAux_eq_self (U : UnicodeData) :
    ∀ {l : List Nat}, (∀ c ∈ l, U.ccc c = 0) → reorderAux U [] l = l := by
  intro l
  induction l with
  | nil => intro _; rfl
  | cons c cs ih =>
      intro h
      unfold reorderAux
      rw [if_pos (h c (List.mem_cons_self _ _)),
        ih (fun d hd => h d (List.mem_cons_of_mem _ hd))]
      rfl

/-- C10 amended: over character data in which (i) canonical decompositions
are fully decomposed, (ii) every character produced by lowercasing followed
by decomposition is fixed under lowercasing (true of the real Unicode
tables), and (iii) every nonzero-combining-class character is of category
Mn — condition (iii) holds for the Pali romanisation repertoire but not for
all of Unicode — `normalize_text` never outputs a category-Mn character,
and is idempotent. -/
theorem normalizeText_amended (U : UnicodeData)
    (hfull : ∀ c, ∀ d ∈ U.decompChar c, U.decompChar d = [d])
    (hlower : ∀ c, ∀ d ∈ (U.lowerChar c).flatMap U.decompChar, U.lowerChar d = [d])
    (hMn : ∀ c, U.ccc c ≠ 0 → U.isMn c = true) :
    (∀ s, ∀ c ∈ normalizeText U s, U.isMn c = false) ∧
      ∀ s, normalizeText U (normalizeText U s) = normalizeText U s := by
  have hMnOut : ∀ s, ∀ c ∈ normalizeText U s, U.isMn c = false := by
    intro s c hc
    have h := List.of_mem_filter hc
    simpa using h
  refine ⟨hMnOut, ?_⟩
  intro s
  have hmem : ∀ c ∈ normalizeText U s,
      c ∈ (strLower U s).flatMap U.decompChar := by
    intro c hc
    have h1 : c ∈ nfd U (strLower U s) := List.mem_of_mem_filter hc
    exact ((reorderAux_perm U _ []).mem_iff).mp h1
  have hccc : ∀ c ∈ normalizeText U s, U.ccc c = 0 := by
    intro c hc
    by_contra h
    have := hMn c h
    rw [hMnOut s c hc] at this
    exact Bool.false_ne_true this
  have hlowOut : ∀ c ∈ normalizeText U s, U.lowerChar c = [c] := by
    intro c hc
    rcases List.mem_flatMap.mp (hmem c hc) with ⟨y, hy, hcy⟩
    rcases List.mem_flatMap.mp hy with ⟨x, _, hyx⟩
    exact hlower x c (List.mem_flatMap.mpr ⟨y, hyx, hcy⟩)
  have hdecompOut : ∀ c ∈ normalizeText U s, U.decompChar c = [c] := by
    intro c hc
    rcases List.mem_flatMap.mp (hmem c hc) with ⟨y, _, hcy⟩
    exact hfull y c hcy
  show (reorderAux U []
      ((((nfd U (strLower U s)).filter _).flatMap U.lowerChar).flatMap
        U.decompChar)).filter _ = _
  rw [show ((nfd U (strLower U s)).filter (fun c => !U.isMn c)) = normalizeText U s
      from rfl]
  rw [flatMap_eq_self hlowOut, flatMap_eq_self hdecompOut,
    reorderAux_eq_self U hccc]
  apply List.filter_eq_self.mpr
  intro c hc
  rw [hMnOut s c hc]
  rfl

/-- C10 counterexample, over the real Unicode data of the involved code
points: `normalize_text` is not idempotent (filtering the Mn character
U+0E47 makes the two retained Mc combining marks adjacent and out of
canonical order, so the second pass reorders them), and its output can
contain an uppercase letter (U+03D2 is category Lu and has no lowercase
mapping). -/
theorem normalizeText_counterexample :
    normalizeText unicodeReal [0x1D16D, 0xE47, 0x1D165] = [0x1D16D, 0x1D165] ∧
    normalizeText unicodeReal (normalizeText unicodeReal [0x1D16D, 0xE47, 0x1D165]) =
      [0x1D165, 0x1D16D] ∧
    normalizeText unicodeReal (normalizeText unicodeReal [0x1D16D, 0xE47, 0x1D165]) ≠
      normalizeText unicodeReal [0x1D16D, 0xE47, 0x1D165] ∧
    (normalizeText unicodeReal [0x3D2]).any unicodeReal.isUppercase = true := by
  decide

/-- Witness for C10 amended: on the Pali-repertoire character model the
hypotheses hold, and `normalize_text` is idempotent on the string
`"Aā"` (`[0x41, 0x101]`). -/
theorem normalizeText_amended_witness :
    normalizeText unicodePali (normalizeText unicodePali [0x41, 0x101]) =
      normalizeText unicodePali [0x41, 0x101] :=
  (normalizeText_amended unicodePali
    (by
      intro c d hd
      by_cases hc : c = 0x101
      · subst hc
        simp [unicodePali] at hd
        rcases hd with rfl | rfl <;> decide
      · simp [unicodePali, hc] at hd
        subst hd
        simp [unicodePali, hc])
    (by
      intro c d hd
      by_cases hc : c = 0x41
      · subst hc
        simp [unicodePali] at hd
        subst hd
        decide
      · by_cases hc2 : c = 0x101
        · subst hc2
          simp [unicodePali] at hd
          rcases hd with rfl | rfl <;> decide
        · simp [unicodePali, hc, hc2] at hd
          subst hd
          simp [unicodePali, hc])
    (by
      intro c h
      by_cases hc : c = 0x304
      · subst hc
        decide
      · exact absurd (by simp [unicodePali, hc]) h)).2
    [0x41, 0x101]

end PaliDict
